import Mathlib

/-!
# Verification of the authenticated-request primitive of `wechat_work`

The development embeds `src/client.go`: the client record, the common response
envelope and `AgentClient.requestWithToken`.  The parts of Go's standard library
that the function calls are embedded next to it:

* `url.Values` (`Set`, `Encode`, `QueryEscape`), `url.ParseQuery` and
  `fmt.Errorf` are pure and are written out; a Go string is a Lean `String`,
  its bytes being its UTF-8 encoding;
* the request `http.NewRequest` builds when it gives no error is written out:
  the method, `GET` standing for the empty one, and the URL as `url.Parse`
  cuts it into scheme, host, path, query and fragment;
* `json.Unmarshal` is written out for JSON text held in a `String` and for
  destinations that are structs of `int` (64 bits) and `string` fields, the
  shape of `CommonResponse`;
* the token step, `json.Marshal`, the refusal of a method or a URL by
  `http.NewRequest`, the HTTP transport and the reading of the response body
  are parameters gathered in `Env`: each returns what the Go call returns, a
  value or an error.
-/

namespace Wechat

/-! ## Data model -/

/-- An instant, in seconds counted from the zero value of Go's `time.Time`. -/
abbrev Time := Nat

/-- The struct `AgentClient` (client.go, lines 16-23). -/
structure AgentClient where
  CorpId : String
  AgentId : Int
  Secret : String
  AccessToken : String
  AccessTokenExpiresAt : Time
deriving DecidableEq, Repr

/-- The constructor `NewAgentClient` (client.go, lines 38-44): the two token
fields keep their zero values. -/
def NewAgentClient (corpId : String) (agentId : Int) (secret : String) : AgentClient :=
  { CorpId := corpId, AgentId := agentId, Secret := secret,
    AccessToken := "", AccessTokenExpiresAt := 0 }

/-- The struct `CommonResponse` (client.go, lines 47-50). -/
structure CommonResponse where
  ErrCode : Int
  ErrMsg : String
deriving DecidableEq, Repr

/-- The constant `WechatApiUrl` (client.go, line 53). -/
def WechatApiUrl : String := "https://qyapi.weixin.qq.com/cgi-bin"

/-! ## `net/url`: query values -/

/-- Go's `url.Values`, a `map[string][]string`, as an association list: the
entry of a key is its first binding. -/
abbrev Values := List (String × List String)

/-- The slice stored under `key`; a missing key reads as the empty slice. -/
def Values.get (v : Values) (key : String) : List String :=
  (v.lookup key).getD []

/-- Go's `Values.Set`: the key is bound to the one-element slice `[value]`,
replacing what was stored under it. -/
def Values.Set (v : Values) (key value : String) : Values :=
  (key, [value]) :: v.filter (fun e => e.1 ≠ key)

/-- Go's `shouldEscape` in mode `encodeQueryComponent`: letters, digits and
the marks `-`, `_`, `.`, `~` are kept, every other byte is escaped. -/
def shouldEscape (c : Nat) : Bool :=
  if (97 ≤ c ∧ c ≤ 122) ∨ (65 ≤ c ∧ c ≤ 90) ∨ (48 ≤ c ∧ c ≤ 57) then false
  else if c = 45 ∨ c = 95 ∨ c = 46 ∨ c = 126 then false
  else true

/-- The table `upperhex` of `net/url`. -/
def upperhex (n : Nat) : Char :=
  "0123456789ABCDEF".toList.getD n '0'

/-- One byte of `url.QueryEscape`: kept, turned into `+` (a space) or into
`%XY`. -/
def escapeByte (c : Nat) : List Char :=
  if shouldEscape c then
    if c = 32 then ['+'] else ['%', upperhex (c / 16), upperhex (c % 16)]
  else [Char.ofNat c]

/-- The UTF-8 encoding of the rune with the code `n`. -/
def utf8Rune (n : Nat) : List Nat :=
  if n < 0x80 then [n]
  else if n < 0x800 then [0xC0 + n / 64, 0x80 + n % 64]
  else if n < 0x10000 then [0xE0 + n / 4096, 0x80 + n / 64 % 64, 0x80 + n % 64]
  else [0xF0 + n / 262144, 0x80 + n / 4096 % 64, 0x80 + n / 64 % 64, 0x80 + n % 64]

/-- The bytes of a Go string, the UTF-8 encoding of its runes. -/
def utf8Bytes (s : String) : List Nat :=
  s.toList.flatMap (fun c => utf8Rune c.toNat)

/-- Go's `url.QueryEscape`. -/
def QueryEscape (s : String) : String :=
  String.mk ((utf8Bytes s).flatMap escapeByte)

/-- Lexicographic order on the runes of two strings; it is the order of their
UTF-8 bytes, by which Go compares strings. -/
def ltRunes : List Char → List Char → Bool
  | _, [] => false
  | [], _ :: _ => true
  | a :: as, b :: bs =>
    if a.toNat < b.toNat then true
    else if b.toNat < a.toNat then false
    else ltRunes as bs

/-- Go's `a < b` on strings. -/
def strLt (a b : String) : Bool := ltRunes a.toList b.toList

/-- Insertion of a key into a list of keys sorted in increasing order. -/
def insertKey (k : String) : List String → List String
  | [] => [k]
  | x :: xs => if strLt k x then k :: x :: xs else x :: insertKey k xs

/-- The keys in increasing order, what `slices.Sort(keys)` leaves. -/
def sortKeys : List String → List String
  | [] => []
  | k :: ks => insertKey k (sortKeys ks)

/-- The keys of the map, each once. -/
def Values.keys : Values → List String
  | [] => []
  | e :: rest => e.1 :: (Values.keys rest).filter (fun k => k ≠ e.1)

/-- The key/value pairs in the order `Values.Encode` writes them: keys sorted,
the values of one key in the order of its slice. -/
def Values.pairs (v : Values) : List (String × String) :=
  (sortKeys v.keys).flatMap (fun k => (v.get k).map (fun x => (k, x)))

/-- The text `Values.Encode` writes for one pair: the key and the value, both
escaped, with `=` between them. -/
def encodedPair (p : String × String) : String :=
  QueryEscape p.1 ++ "=" ++ QueryEscape p.2

/-- Go's `Values.Encode`: the texts of the pairs joined by `&`. -/
def Values.Encode (v : Values) : String :=
  "&".intercalate (v.pairs.map encodedPair)

/-- The value of a hexadecimal digit (`unhex`). -/
def hexVal (c : Char) : Option Nat :=
  if '0' ≤ c ∧ c ≤ '9' then some (c.toNat - 48)
  else if 'a' ≤ c ∧ c ≤ 'f' then some (c.toNat - 87)
  else if 'A' ≤ c ∧ c ≤ 'F' then some (c.toNat - 55)
  else none

/-- Go's `url.QueryUnescape`, giving the bytes of the unescaped string: `%XY`
is the byte `XY`, `+` a space, any other rune stands for itself; a `%` that two
hexadecimal digits do not follow is an error. -/
def QueryUnescape : List Char → Option (List Nat)
  | [] => some []
  | c :: rest =>
    if c = '%' then
      match rest with
      | a :: b :: rest2 =>
        match hexVal a, hexVal b, QueryUnescape rest2 with
        | some x, some y, some bytes => some ((x * 16 + y) :: bytes)
        | _, _, _ => none
      | _ => none
    else
      match QueryUnescape rest with
      | some bytes => some ((if c = '+' then [32] else utf8Rune c.toNat) ++ bytes)
      | none => none

/-- The pieces of a text between the occurrences of a separator. -/
def splitOn (sep : Char) : List Char → List (List Char)
  | [] => [[]]
  | c :: cs =>
    if c = sep then [] :: splitOn sep cs
    else
      match splitOn sep cs with
      | piece :: pieces => (c :: piece) :: pieces
      | [] => [[c]]

/-- Go's `strings.Cut(s, sep)` for a separator of one character: the text
before the first `sep` and the text after it, empty when there is none. -/
def cut (sep : Char) : List Char → List Char × List Char
  | [] => ([], [])
  | c :: cs => if c = sep then ([], cs) else (c :: (cut sep cs).1, (cut sep cs).2)

/-- One piece of a query string in `url.ParseQuery`: an empty piece, a piece
with a semicolon or with a bad escape gives nothing, any other gives a key and
a value. -/
def parsePiece (piece : List Char) : Option (List Nat × List Nat) :=
  if piece.contains ';' then none
  else if piece = [] then none
  else
    match QueryUnescape (cut '=' piece).1, QueryUnescape (cut '=' piece).2 with
    | some key, some value => some (key, value)
    | _, _ => none

/-- Go's `url.ParseQuery`, as the list of the keys and values it stores, in
the order it stores them, each as the bytes of a Go string. -/
def ParseQuery (query : String) : List (List Nat × List Nat) :=
  (splitOn '&' query.toList).filterMap parsePiece

/-- The values `url.ParseQuery` leaves under a key, in their order. -/
def parsedValues (parsed : List (List Nat × List Nat)) (key : String) : List (List Nat) :=
  (parsed.filter (fun p => p.1 = utf8Bytes key)).map Prod.snd

/-- The text of the items joined by `&`. -/
def joinAmp : List (List Char) → List Char
  | [] => []
  | [a] => a
  | a :: b :: rest => a ++ '&' :: joinAmp (b :: rest)

/-! ## `encoding/json`: documents -/

/-- A JSON document as Go's decoder sees it: a number keeps its literal. -/
inductive JSON where
  | null
  | bool (b : Bool)
  | num (lit : String)
  | str (s : String)
  | arr (items : List JSON)
  | obj (members : List (String × JSON))

/-- The blanks JSON allows between tokens. -/
def isSpace (c : Char) : Bool :=
  c = ' ' || c = '\t' || c = '\r' || c = '\n'

/-- Drops leading blanks. -/
def skipSpace : List Char → List Char
  | [] => []
  | c :: cs => if isSpace c then skipSpace cs else c :: cs

/-- The leading decimal digits of the input and what follows them. -/
def takeDigits : List Char → List Char × List Char
  | [] => ([], [])
  | c :: cs =>
    if c.isDigit then ((takeDigits cs).1.cons c, (takeDigits cs).2) else ([], c :: cs)

/-- Go's `getu4`: the code unit of a `\uXXXX` escape at the head of the input,
with the input after the escape. -/
def getu4 : List Char → Option (Nat × List Char)
  | '\\' :: 'u' :: a :: b :: c :: d :: rest =>
    match hexVal a, hexVal b, hexVal c, hexVal d with
    | some x, some y, some z, some w => some (((x * 16 + y) * 16 + z) * 16 + w, rest)
    | _, _, _, _ => none
  | _ => none

/-- The rune U+FFFD that Go writes for an unpaired surrogate. -/
def replacementChar : Char := Char.ofNat 0xFFFD

/-- The text of a string literal, read after its opening quote (Go's scanner
and `unquote`): escapes are resolved, a surrogate pair gives one rune, a lone
surrogate gives U+FFFD, a control character or an unknown escape is refused. -/
def scanString : Nat → List Char → List Char → Option (String × List Char)
  | 0, _, _ => none
  | fuel + 1, cs, acc =>
    match cs with
    | [] => none
    | '"' :: rest => some (String.mk acc.reverse, rest)
    | '\\' :: 'u' :: _ =>
      match getu4 cs with
      | none => none
      | some (rr, rest) =>
        if 0xD800 ≤ rr ∧ rr < 0xE000 then
          match getu4 rest with
          | some (rr1, rest1) =>
            if rr < 0xDC00 ∧ 0xDC00 ≤ rr1 ∧ rr1 < 0xE000 then
              scanString fuel rest1
                (Char.ofNat ((rr - 0xD800) * 1024 + (rr1 - 0xDC00) + 0x10000) :: acc)
            else scanString fuel rest (replacementChar :: acc)
          | none => scanString fuel rest (replacementChar :: acc)
        else scanString fuel rest (Char.ofNat rr :: acc)
    | '\\' :: e :: rest =>
      if e = '"' ∨ e = '\\' ∨ e = '/' then scanString fuel rest (e :: acc)
      else if e = 'b' then scanString fuel rest (Char.ofNat 8 :: acc)
      else if e = 'f' then scanString fuel rest (Char.ofNat 12 :: acc)
      else if e = 'n' then scanString fuel rest ('\n' :: acc)
      else if e = 'r' then scanString fuel rest ('\r' :: acc)
      else if e = 't' then scanString fuel rest ('\t' :: acc)
      else none
    | c :: rest => if c.toNat < 32 ∨ c = '\\' then none else scanString fuel rest (c :: acc)

/-- The optional fraction of a number literal. -/
def scanFraction : List Char → Option (List Char × List Char)
  | '.' :: rest =>
    if (takeDigits rest).1 = [] then none
    else some ('.' :: (takeDigits rest).1, (takeDigits rest).2)
  | cs => some ([], cs)

/-- The digits of an exponent, after its optional sign. -/
def scanExpDigits (mark : List Char) (cs : List Char) : Option (List Char × List Char) :=
  if (takeDigits cs).1 = [] then none
  else some (mark ++ (takeDigits cs).1, (takeDigits cs).2)

/-- The optional exponent of a number literal. -/
def scanExponent : List Char → Option (List Char × List Char)
  | e :: rest =>
    if e = 'e' ∨ e = 'E' then
      match rest with
      | s :: rest1 =>
        if s = '+' ∨ s = '-' then scanExpDigits [e, s] rest1 else scanExpDigits [e] rest
      | [] => none
    else some ([], e :: rest)
  | [] => some ([], [])

/-- The integer part of a number literal: `0`, or a nonzero digit and more
digits. -/
def scanIntPart : List Char → Option (List Char × List Char)
  | c :: rest =>
    if c = '0' then some (['0'], rest)
    else if c.isDigit then some (c :: (takeDigits rest).1, (takeDigits rest).2)
    else none
  | [] => none

/-- A number literal, by the grammar of JSON; the literal is kept as text. -/
def scanNumber (cs : List Char) : Option (String × List Char) :=
  let signed : List Char × List Char :=
    match cs with
    | '-' :: rest => (['-'], rest)
    | _ => ([], cs)
  match scanIntPart signed.2 with
  | none => none
  | some (ip, r1) =>
    match scanFraction r1 with
    | none => none
    | some (fp, r2) =>
      match scanExponent r2 with
      | none => none
      | some (ep, r3) => some (String.mk (signed.1 ++ ip ++ fp ++ ep), r3)

/-- The nesting depth past which Go's scanner gives up. -/
def maxNestingDepth : Nat := 10000

mutual
/-- One JSON value at the head of the input, blanks before it skipped; `depth`
counts the arrays and objects that are open. -/
def parseValue : Nat → Nat → List Char → Option (JSON × List Char)
  | 0, _, _ => none
  | fuel + 1, depth, cs =>
    match skipSpace cs with
    | [] => none
    | 'n' :: 'u' :: 'l' :: 'l' :: rest => some (JSON.null, rest)
    | 't' :: 'r' :: 'u' :: 'e' :: rest => some (JSON.bool true, rest)
    | 'f' :: 'a' :: 'l' :: 's' :: 'e' :: rest => some (JSON.bool false, rest)
    | '"' :: rest =>
      match scanString (rest.length + 1) rest [] with
      | some (s, rest1) => some (JSON.str s, rest1)
      | none => none
    | '[' :: rest =>
      if maxNestingDepth ≤ depth then none
      else
        match skipSpace rest with
        | ']' :: rest1 => some (JSON.arr [], rest1)
        | _ => parseElements fuel (depth + 1) rest []
    | '{' :: rest =>
      if maxNestingDepth ≤ depth then none
      else
        match skipSpace rest with
        | '}' :: rest1 => some (JSON.obj [], rest1)
        | _ => parseMembers fuel (depth + 1) rest []
    | c :: rest =>
      match scanNumber (c :: rest) with
      | some (lit, rest1) => some (JSON.num lit, rest1)
      | none => none
/-- The elements of an array after its opening bracket, up to the closing
one. -/
def parseElements : Nat → Nat → List Char → List JSON → Option (JSON × List Char)
  | 0, _, _, _ => none
  | fuel + 1, depth, cs, acc =>
    match parseValue fuel depth cs with
    | none => none
    | some (v, rest) =>
      match skipSpace rest with
      | ',' :: rest1 => parseElements fuel depth rest1 (acc ++ [v])
      | ']' :: rest1 => some (JSON.arr (acc ++ [v]), rest1)
      | _ => none
/-- The members of an object after its opening brace, up to the closing one. -/
def parseMembers : Nat → Nat → List Char → List (String × JSON) → Option (JSON × List Char)
  | 0, _, _, _ => none
  | fuel + 1, depth, cs, acc =>
    match skipSpace cs with
    | '"' :: rest =>
      match scanString (rest.length + 1) rest [] with
      | none => none
      | some (key, rest1) =>
        match skipSpace rest1 with
        | ':' :: rest2 =>
          match parseValue fuel depth rest2 with
          | none => none
          | some (v, rest3) =>
            match skipSpace rest3 with
            | ',' :: rest4 => parseMembers fuel depth rest4 (acc ++ [(key, v)])
            | '}' :: rest4 => some (JSON.obj (acc ++ [(key, v)]), rest4)
            | _ => none
        | _ => none
    | _ => none
end

/-- The document a text holds, when the text is valid JSON: one value with
blanks around it (Go's `checkValid` followed by the scan of the value). -/
def parseJSON (text : String) : Option JSON :=
  match parseValue (2 * text.length + 2) 0 text.toList with
  | some (v, rest) => if skipSpace rest = [] then some v else none
  | none => none

/-! ## `encoding/json`: decoding into a struct -/

/-- The errors of `json.Unmarshal`: the text is not valid JSON
(`*json.SyntaxError`), or a value does not fit the Go type it is stored in
(`*json.UnmarshalTypeError`, with its fields `Value`, `Type`, `Struct` and
`Field`; the last two are empty at the top level). -/
inductive JsonError where
  | invalid (text : String)
  | mismatch (value goType struct field : String)
deriving DecidableEq, Repr

/-- An exported field of a Go struct `S`, by its type: how a decoded value is
stored in it. -/
inductive Field (S : Type) where
  | int (set : S → Int → S)
  | string (set : S → String → S)

/-- A Go struct type as the decoder sees it: its package and name, and its
fields with their JSON names, in the order of declaration. -/
structure StructType (S : Type) where
  pkg : String
  name : String
  fields : List (String × Field S)

/-- The fields of `CommonResponse`; it has no tags, so the JSON names are the
Go names. -/
def commonResponseType : StructType CommonResponse :=
  { pkg := "wechat", name := "CommonResponse",
    fields :=
      [("ErrCode", Field.int (fun info n => { info with ErrCode := n })),
       ("ErrMsg", Field.string (fun info m => { info with ErrMsg := m }))] }

/-- Go's `foldRune` on the runes that can meet an ASCII letter: a lower-case
letter gives its upper case, U+017F gives `S` and U+212A gives `K`. -/
def foldRune (c : Char) : Char :=
  if 'a' ≤ c ∧ c ≤ 'z' then Char.ofNat (c.toNat - 32)
  else if c.toNat = 0x17F then 'S'
  else if c.toNat = 0x212A then 'K'
  else c

/-- Go's `foldName`: two names match without regard to case when their folded
names are equal (exact for field names in ASCII). -/
def foldName (name : String) : List Char :=
  name.toList.map foldRune

/-- The field a JSON key selects: the field of that exact name, or else the
first one whose name matches without regard to case. -/
def findField {S : Type} (t : StructType S) (key : String) : Option (String × Field S) :=
  match t.fields.find? (fun f => f.1 = key) with
  | some f => some f
  | none => t.fields.find? (fun f => foldName f.1 = foldName key)

/-- The value of a run of decimal digits read after `acc`. -/
def decimal (acc : Nat) : List Char → Option Nat
  | [] => some acc
  | c :: cs => if c.isDigit then decimal (10 * acc + (c.toNat - 48)) cs else none

/-- Go's `strconv.ParseInt(lit, 10, 64)`: an optional sign and decimal digits,
the value within the range of `int64`. -/
def ParseInt (lit : String) : Option Int :=
  match lit.toList with
  | [] => none
  | '-' :: ds =>
    if ds = [] then none
    else
      match decimal 0 ds with
      | some n => if n ≤ 2 ^ 63 then some (-(n : Int)) else none
      | none => none
  | '+' :: ds =>
    if ds = [] then none
    else
      match decimal 0 ds with
      | some n => if n < 2 ^ 63 then some (n : Int) else none
      | none => none
  | ds =>
    match decimal 0 ds with
    | some n => if n < 2 ^ 63 then some (n : Int) else none
    | none => none

/-- The word by which `UnmarshalTypeError` describes a JSON value that is
stored in a field of type `int`. -/
def describeForInt : JSON → String
  | JSON.null => "null"
  | JSON.bool _ => "bool"
  | JSON.num lit => "number " ++ lit
  | JSON.str _ => "string"
  | JSON.arr _ => "array"
  | JSON.obj _ => "object"

/-- The word by which `UnmarshalTypeError` describes a JSON value elsewhere. -/
def describe : JSON → String
  | JSON.null => "null"
  | JSON.bool _ => "bool"
  | JSON.num _ => "number"
  | JSON.str _ => "string"
  | JSON.arr _ => "array"
  | JSON.obj _ => "object"

/-- One member of an object stored in the field it selects: `null` leaves the
field as it is, a value of the field's type is stored, any other value leaves
the field as it is and gives a type error. -/
def storeField {S : Type} (struct name : String) (f : Field S) (v : JSON) (s : S) :
    S × Option JsonError :=
  match f, v with
  | _, JSON.null => (s, none)
  | Field.int set, JSON.num lit =>
    match ParseInt lit with
    | some n => (set s n, none)
    | none => (s, some (JsonError.mismatch (describeForInt v) "int" struct name))
  | Field.int _, _ => (s, some (JsonError.mismatch (describeForInt v) "int" struct name))
  | Field.string set, JSON.str x => (set s x, none)
  | Field.string _, _ => (s, some (JsonError.mismatch (describe v) "string" struct name))

/-- The members of an object stored one after the other; a key that selects no
field is skipped; decoding goes on after a type error, and the first error is
the one kept (`saveError`). -/
def storeMembers {S : Type} (t : StructType S) :
    List (String × JSON) → S → Option JsonError → S × Option JsonError
  | [], s, e => (s, e)
  | (key, v) :: rest, s, e =>
    match findField t key with
    | none => storeMembers t rest s e
    | some (name, f) =>
      storeMembers t rest (storeField t.name name f v s).1
        (match e with
         | some first => some first
         | none => (storeField t.name name f v s).2)

/-- A document stored in a struct: `null` changes nothing, an object is stored
member by member, any other value is a type error. -/
def storeStruct {S : Type} (t : StructType S) (j : JSON) (s : S) : S × Option JsonError :=
  match j with
  | JSON.null => (s, none)
  | JSON.obj members => storeMembers t members s none
  | other => (s, some (JsonError.mismatch (describe other) (t.pkg ++ "." ++ t.name) "" ""))

/-- Go's `json.Unmarshal(data, v)`: text that is not valid JSON is refused
before anything is stored; otherwise the document is stored in `v` by `store`,
the decoder for the Go type of `v`. -/
def Unmarshal {S : Type} (store : JSON → S → S × Option JsonError) (data : String) (v : S) :
    S × Option JsonError :=
  match parseJSON data with
  | none => (v, some (JsonError.invalid data))
  | some j => store j v

/-- Whether a member of an object leaves the envelope as it is or writes its
message only: its key selects no field of `CommonResponse`, or it selects
`ErrMsg` and its value is a string or `null`. -/
def quietMember (m : String × JSON) : Bool :=
  match findField commonResponseType m.1 with
  | none => true
  | some (name, _) =>
    name == "ErrMsg" &&
      (match m.2 with
       | JSON.str _ => true
       | JSON.null => true
       | _ => false)

/-- Whether a document is `null`, or an object with no member for `ErrCode`
whose members for `ErrMsg` are strings or `null`. -/
def noErrCode : JSON → Bool
  | JSON.null => true
  | JSON.obj members => members.all quietMember
  | _ => false

/-! ## The environment of `requestWithToken` -/

/-- The modes in which `net/url` escapes the path and the fragment of a URL. -/
inductive Encoding where
  | encodePath
  | encodeFragment
deriving DecidableEq, Repr

/-- Go's `shouldEscape` in the modes `encodePath` and `encodeFragment`. -/
def shouldEscapeIn (mode : Encoding) (c : Nat) : Bool :=
  if (97 ≤ c ∧ c ≤ 122) ∨ (65 ≤ c ∧ c ≤ 90) ∨ (48 ≤ c ∧ c ≤ 57) then false
  else if c = 45 ∨ c = 95 ∨ c = 46 ∨ c = 126 then false
  else if c = 36 ∨ c = 38 ∨ c = 43 ∨ c = 44 ∨ c = 47 ∨ c = 58 ∨ c = 59 ∨ c = 61 ∨ c = 63
      ∨ c = 64 then
    match mode with
    | Encoding.encodePath => c = 63
    | Encoding.encodeFragment => false
  else
    match mode with
    | Encoding.encodePath => true
    | Encoding.encodeFragment => !(c = 33 || c = 40 || c = 41 || c = 42)

/-- Go's `validEncoded`: whether a text is written as `net/url` would leave
it. -/
def validEncoded (mode : Encoding) (s : List Char) : Bool :=
  s.all (fun c =>
    "!$&()*+,;=:@[]%".toList.contains c || c.toNat = 39 || !shouldEscapeIn mode c.toNat)

/-- Go's `unescape` in the modes `encodePath` and `encodeFragment`, giving the
bytes of the unescaped string: `%XY` is the byte `XY`, any other rune stands
for itself; a `%` that two hexadecimal digits do not follow is an error. -/
def unescape : List Char → Option (List Nat)
  | [] => some []
  | c :: rest =>
    if c = '%' then
      match rest with
      | a :: b :: rest2 =>
        match hexVal a, hexVal b, unescape rest2 with
        | some x, some y, some bytes => some ((x * 16 + y) :: bytes)
        | _, _, _ => none
      | _ => none
    else
      match unescape rest with
      | some bytes => some (utf8Rune c.toNat ++ bytes)
      | none => none

/-- One byte in Go's `escape` in the modes `encodePath` and `encodeFragment`. -/
def escapeByteIn (mode : Encoding) (c : Nat) : List Char :=
  if shouldEscapeIn mode c then ['%', upperhex (c / 16), upperhex (c % 16)]
  else [Char.ofNat c]

/-- Go's `URL.EscapedPath` and `URL.EscapedFragment` for a path or a fragment
written as `s`: the text itself when it is a valid encoding, and otherwise its
bytes escaped anew. -/
def escapedText (mode : Encoding) (s : List Char) : String :=
  if validEncoded mode s then String.mk s
  else
    match unescape s with
    | some bytes => String.mk (bytes.flatMap (escapeByteIn mode))
    | none => String.mk s

/-- The loop of Go's `getScheme`: the scheme read so far and the text left. -/
def getSchemeLoop (rawURL : List Char) : List Char → List Char → List Char × List Char
  | _, [] => ([], rawURL)
  | scheme, c :: rest =>
    if c.isAlpha then getSchemeLoop rawURL (scheme ++ [c]) rest
    else if c.isDigit ∨ c = '+' ∨ c = '-' ∨ c = '.' then
      if scheme = [] then ([], rawURL) else getSchemeLoop rawURL (scheme ++ [c]) rest
    else if c = ':' then
      if scheme = [] then ([], rawURL) else (scheme, rest)
    else ([], rawURL)

/-- Go's `getScheme`: the scheme of a text, and the text after its colon; a
text without a scheme is left whole. -/
def getScheme (rawURL : List Char) : List Char × List Char :=
  getSchemeLoop rawURL [] rawURL

/-- The authority and the path of the text that follows the scheme and comes
before the query: after `//` the authority runs up to the next `/`. -/
def splitAuthority (scheme rest : List Char) : List Char × List Char :=
  match rest with
  | '/' :: '/' :: more =>
    if scheme ≠ [] ∨ more.head? ≠ some '/' then more.span (fun c => c ≠ '/')
    else ([], rest)
  | _ => ([], rest)

/-- A `*url.URL` as `url.Parse` makes it of the text of a URL, by what the
request sent takes from it: the scheme, the host, the path as
`URL.EscapedPath` writes it, the query as written, and whether a `?` with
nothing after it ends the text; the fragment, as `URL.EscapedFragment` writes
it, is not sent. -/
structure URL where
  Scheme : String
  Host : String
  EscapedPath : String
  ForceQuery : Bool
  RawQuery : String
  EscapedFragment : String
deriving DecidableEq, Repr

/-- Go's `url.Parse` on a text it accepts, in which `//` and a host name follow
the scheme, as they do in every text that begins with `WechatApiUrl`: the
fragment is what follows the first `#`; the scheme is read from what comes
before it; in the rest the query is what follows the first `?`, and what
precedes it is cut into authority and path. -/
def urlParse (rawURL : String) : URL :=
  { Scheme := String.mk ((getScheme (cut '#' rawURL.toList).1).1.map Char.toLower),
    Host := String.mk (splitAuthority (getScheme (cut '#' rawURL.toList).1).1
      (cut '?' (getScheme (cut '#' rawURL.toList).1).2).1).1,
    EscapedPath := escapedText Encoding.encodePath
      (splitAuthority (getScheme (cut '#' rawURL.toList).1).1
        (cut '?' (getScheme (cut '#' rawURL.toList).1).2).1).2,
    ForceQuery := (getScheme (cut '#' rawURL.toList).1).2.contains '?'
      && (cut '?' (getScheme (cut '#' rawURL.toList).1).2).2.isEmpty,
    RawQuery := String.mk (cut '?' (getScheme (cut '#' rawURL.toList).1).2).2,
    EscapedFragment := escapedText Encoding.encodeFragment (cut '#' rawURL.toList).2 }

/-- Go's `URL.RequestURI`: the path and the query as the request line carries
them. -/
def URL.RequestURI (u : URL) : String :=
  (if u.EscapedPath = "" then "/" else u.EscapedPath)
    ++ (if u.ForceQuery ∨ u.RawQuery ≠ "" then "?" ++ u.RawQuery else "")

/-- A `*http.Request`, the request the client sends. -/
structure Request where
  Method : String
  URL : URL
  Header : List (String × String)
  Body : String
deriving DecidableEq, Repr

/-- Go's `http.NewRequest(method, url, body)` when it gives no error: an empty
method stands for `GET`, the URL is parsed, the header is empty. -/
def NewRequest (method url body : String) : Request :=
  { Method := if method = "" then "GET" else method,
    URL := urlParse url,
    Header := [],
    Body := body }

/-- Go's `req.Header.Add(key, value)`. -/
def Request.AddHeader (req : Request) (key value : String) : Request :=
  { req with Header := req.Header ++ [(key, value)] }

/-- A `*http.Response`: its status code and what reading its body to the end
gives, the bytes or an error. -/
structure Response where
  StatusCode : Int
  Body : Except String String

/-- What `requestWithToken` calls and does not define, for request payloads of
type `P` and destinations of type `D`; an error is its message. -/
structure Env (P D : Type) where
  /-- The method `cli.GetAccessTokenFromCache()`: the client after the call,
  and the token or an error. -/
  GetAccessTokenFromCache : AgentClient → AgentClient × Except String String
  /-- The call `json.Marshal(reqData)`. -/
  Marshal : P → Except String String
  /-- The error of `http.NewRequest(method, url, body)`, if it gives one: the
  method or the URL is refused. -/
  NewRequestError : String → String → Option String
  /-- The call `http.DefaultClient.Do(req)`. -/
  Do : Request → Except String Response
  /-- The message of a `json` error, its method `Error()`. -/
  jsonErrorText : JsonError → String
  /-- The decoder of `encoding/json` for the value held in `respInfo`: what a
  valid document changes in the caller's destination. -/
  storeDest : JSON → D → D × Option JsonError

/-- The calls `requestWithToken` makes, in the order it makes them. -/
inductive Event (P : Type) where
  | getToken
  | marshal (reqData : P)
  | newRequest (method url body : String)
  | send (req : Request)
  | readBody
  | unmarshalEnvelope (buf : String)
  | unmarshalDest (buf : String)
deriving DecidableEq

/-- What a call of `requestWithToken` leaves: the error returned (`none` for
`nil`), the client, the caller's destination and the calls made. -/
structure Outcome (P D : Type) where
  err : Option String
  cli : AgentClient
  dest : D
  trace : List (Event P)

/-! ## `requestWithToken` -/

/-- The method `AgentClient.requestWithToken` (client.go, lines 55-105). -/
def requestWithToken {P D : Type} (env : Env P D) (cli : AgentClient) (method path : String)
    (query : Option Values) (reqData : P) (respInfo : D) : Outcome P D :=
  match env.GetAccessTokenFromCache cli with
  | (cli, Except.error err) =>
    { err := some ("获取Token错误: " ++ err), cli := cli, dest := respInfo,
      trace := [Event.getToken] }
  | (cli, Except.ok token) =>
    let query : Values := (query.getD []).Set "access_token" token
    match env.Marshal reqData with
    | Except.error err =>
      { err := some ("编码参数错误: " ++ err), cli := cli, dest := respInfo,
        trace := [Event.getToken, Event.marshal reqData] }
    | Except.ok buf =>
      let url := WechatApiUrl ++ path ++ "?" ++ query.Encode
      match env.NewRequestError method url with
      | some err =>
        { err := some ("构造请求错误: " ++ err), cli := cli, dest := respInfo,
          trace := [Event.getToken, Event.marshal reqData, Event.newRequest method url buf] }
      | none =>
        let req : Request :=
          (NewRequest method url buf).AddHeader "Content-Type" "application/json"
        match env.Do req with
        | Except.error err =>
          { err := some ("执行请求错误: " ++ err), cli := cli, dest := respInfo,
            trace := [Event.getToken, Event.marshal reqData,
              Event.newRequest method url buf, Event.send req] }
        | Except.ok resp =>
          match resp.Body with
          | Except.error err =>
            { err := some ("读取响应错误: " ++ err), cli := cli, dest := respInfo,
              trace := [Event.getToken, Event.marshal reqData,
                Event.newRequest method url buf, Event.send req, Event.readBody] }
          | Except.ok buf1 =>
            match Unmarshal (storeStruct commonResponseType) buf1
                ({ ErrCode := 0, ErrMsg := "" } : CommonResponse) with
            | (_, some err) =>
              { err := some ("解析响应错误: " ++ env.jsonErrorText err), cli := cli,
                dest := respInfo,
                trace := [Event.getToken, Event.marshal reqData,
                  Event.newRequest method url buf, Event.send req, Event.readBody,
                  Event.unmarshalEnvelope buf1] }
            | (info, none) =>
              if info.ErrCode ≠ 0 then
                { err := some ("API错误: [" ++ toString info.ErrCode ++ "]" ++ info.ErrMsg),
                  cli := cli, dest := respInfo,
                  trace := [Event.getToken, Event.marshal reqData,
                    Event.newRequest method url buf, Event.send req, Event.readBody,
                    Event.unmarshalEnvelope buf1] }
              else
                match Unmarshal env.storeDest buf1 respInfo with
                | (dest, some err) =>
                  { err := some ("解析响应错误: " ++ env.jsonErrorText err), cli := cli,
                    dest := dest,
                    trace := [Event.getToken, Event.marshal reqData,
                      Event.newRequest method url buf, Event.send req, Event.readBody,
                      Event.unmarshalEnvelope buf1, Event.unmarshalDest buf1] }
                | (dest, none) =>
                  { err := none, cli := cli, dest := dest,
                    trace := [Event.getToken, Event.marshal reqData,
                      Event.newRequest method url buf, Event.send req, Event.readBody,
                      Event.unmarshalEnvelope buf1, Event.unmarshalDest buf1] }

/-- The text of the URL `requestWithToken` hands to `http.NewRequest`
(client.go, lines 61-64 and 71). -/
def requestURL (path : String) (query : Option Values) (token : String) : String :=
  WechatApiUrl ++ path ++ "?" ++ ((query.getD []).Set "access_token" token).Encode

/-- The request `requestWithToken` sends, built from its arguments, the token
and the serialized payload (client.go, lines 61-75). -/
def builtRequest (method path : String) (query : Option Values) (token buf : String) :
    Request :=
  (NewRequest method (requestURL path query token) buf).AddHeader
    "Content-Type" "application/json"

/-- Whether an event is an outbound HTTP call. -/
def Event.isSend {P : Type} : Event P → Bool
  | Event.send _ => true
  | _ => false

/-- Whether an event serializes the payload, builds a request or sends one. -/
def Event.isOutbound {P : Type} : Event P → Bool
  | Event.marshal _ => true
  | Event.newRequest _ _ _ => true
  | Event.send _ => true
  | _ => false

/-- Whether an event decodes the body into the caller's destination. -/
def Event.isUnmarshalDest {P : Type} : Event P → Bool
  | Event.unmarshalDest _ => true
  | _ => false

/-! ## The kinds of error -/

/-- The kinds of error `requestWithToken` returns: the six of the spec's
taxonomy and the failure to build the request. -/
inductive ErrorKind where
  | TokenAcquisitionFailed
  | RequestEncodingFailed
  | RequestBuildFailed
  | TransportFailed
  | ResponseReadFailed
  | ResponseDecodeFailed
  | PlatformError
deriving DecidableEq, Repr

/-- The head of the message of each kind, from the format strings of
`requestWithToken`. -/
def ErrorKind.head : ErrorKind → String
  | ErrorKind.TokenAcquisitionFailed => "获取Token错误: "
  | ErrorKind.RequestEncodingFailed => "编码参数错误: "
  | ErrorKind.RequestBuildFailed => "构造请求错误: "
  | ErrorKind.TransportFailed => "执行请求错误: "
  | ErrorKind.ResponseReadFailed => "读取响应错误: "
  | ErrorKind.ResponseDecodeFailed => "解析响应错误: "
  | ErrorKind.PlatformError => "API错误: ["

/-- The seven kinds. -/
def ErrorKind.all : List ErrorKind :=
  [ErrorKind.TokenAcquisitionFailed, ErrorKind.RequestEncodingFailed,
   ErrorKind.RequestBuildFailed, ErrorKind.TransportFailed, ErrorKind.ResponseReadFailed,
   ErrorKind.ResponseDecodeFailed, ErrorKind.PlatformError]

/-- Whether a kind is one of the six kinds of the spec's taxonomy. -/
def ErrorKind.inSpec : ErrorKind → Bool
  | ErrorKind.RequestBuildFailed => false
  | _ => true

/-- The kind a caller reads from the message of an error: the kind whose head
the message starts with. -/
def kindOf (msg : String) : Option ErrorKind :=
  ErrorKind.all.find? (fun k => k.head.toList.isPrefixOf msg.toList)

/-! ## The token cache -/

/-- What the token step leaves: the client, the token or an error, and the
number of fetches it made. -/
structure TokenStep where
  cli : AgentClient
  result : Except String String
  fetches : Nat

/-- Modelled from the spec: the method `GetAccessTokenFromCache` of the client
(spec 4.1, `GetValidToken`), which is not in `client.go`.  `FetchToken` is the
Token Fetcher of spec 4.2, giving a token and its TTL in seconds, and `now` the
current time.  If no token is cached, the state `NewAgentClient` leaves, or the
expiry of the cached token has passed, a token is fetched and stored with the
expiry `now + ttl`; a failed fetch changes nothing.  Otherwise the cached
token is returned without a fetch. -/
def GetAccessTokenFromCache (FetchToken : AgentClient → Except String (String × Nat))
    (now : Time) (cli : AgentClient) : TokenStep :=
  if (cli.AccessToken = "" ∧ cli.AccessTokenExpiresAt = 0) ∨ cli.AccessTokenExpiresAt ≤ now then
    match FetchToken cli with
    | Except.error err => { cli := cli, result := Except.error err, fetches := 1 }
    | Except.ok (token, ttl) =>
      { cli := { cli with AccessToken := token, AccessTokenExpiresAt := now + ttl },
        result := Except.ok token, fetches := 1 }
  else { cli := cli, result := Except.ok cli.AccessToken, fetches := 0 }

/-- The token step as `requestWithToken` sees it. -/
def TokenStep.toPair (r : TokenStep) : AgentClient × Except String String :=
  (r.cli, r.result)

/-! ## A sample environment -/

/-- A destination of a caller: the named Go type declared in package `wechat`
as

    type TicketInfo struct {
        Ticket    string `json:"ticket"`
        ExpiresIn int    `json:"expires_in"`
    }

of which the caller hands a pointer, `&TicketInfo{}`, to `requestWithToken` as
`respInfo`; `int` has 64 bits. -/
structure TicketInfo where
  Ticket : String
  ExpiresIn : Int
deriving DecidableEq, Repr

/-- The fields of `TicketInfo`, under their JSON names. -/
def ticketInfoType : StructType TicketInfo :=
  { pkg := "wechat", name := "TicketInfo",
    fields :=
      [("ticket", Field.string (fun d x => { d with Ticket := x })),
       ("expires_in", Field.int (fun d n => { d with ExpiresIn := n }))] }

/-- Request payloads of a caller: Go's `nil`, the map `{"foo": "bar"}`, and a
channel, a value `json.Marshal` does not support. -/
inductive SamplePayload where
  | null
  | fooBar
  | channel
deriving DecidableEq, Repr

/-- What `json.Marshal` returns for the sample payloads. -/
def sampleMarshal : SamplePayload → Except String String
  | SamplePayload.null => Except.ok "null"
  | SamplePayload.fooBar => Except.ok "\x7b\"foo\":\"bar\"\x7d"
  | SamplePayload.channel => Except.error "json: unsupported type: chan int"

/-- Go's `httpguts.IsTokenRune`: the characters an HTTP method may hold. -/
def isTokenRune (c : Char) : Bool :=
  c.isAlphanum || "!#$%&*+-.^_|~".toList.contains c || c.toNat = 39 || c.toNat = 96

/-- The table `lowerhex` of `strconv`. -/
def lowerhex (n : Nat) : Char :=
  "0123456789abcdef".toList.getD n '0'

/-- One rune of Go's `strconv.Quote`, exact for the runes of ASCII; a rune
beyond ASCII is written as it is, which Go does when the rune is printable. -/
def quoteRune (c : Char) : List Char :=
  if c = '"' then ['\\', '"']
  else if c = '\\' then ['\\', '\\']
  else if c.toNat = 7 then ['\\', 'a']
  else if c.toNat = 8 then ['\\', 'b']
  else if c.toNat = 12 then ['\\', 'f']
  else if c.toNat = 10 then ['\\', 'n']
  else if c.toNat = 13 then ['\\', 'r']
  else if c.toNat = 9 then ['\\', 't']
  else if c.toNat = 11 then ['\\', 'v']
  else if c.toNat < 32 ∨ c.toNat = 127 then
    ['\\', 'x', lowerhex (c.toNat / 16), lowerhex (c.toNat % 16)]
  else [c]

/-- Go's `strconv.Quote`, the verb `%q`. -/
def goQuote (s : List Char) : String :=
  String.mk ('"' :: s.flatMap quoteRune ++ ['"'])

/-- The first escape of a text that `%` does not start with two hexadecimal
digits after it, as `unescape` of `net/url` reports it: the `%` and up to two
runes after it. -/
def badEscape : List Char → Option (List Char)
  | [] => none
  | c :: rest =>
    if c = '%' then
      match rest with
      | a :: b :: rest2 =>
        if (hexVal a).isSome ∧ (hexVal b).isSome then badEscape rest2 else some [c, a, b]
      | _ => some (c :: rest)
    else badEscape rest

/-- The error of `http.NewRequest(method, url, body)`, if any, for the URLs
`requestWithToken` builds (the base URL followed by a path and a query) and
text in ASCII: a method that is neither empty nor made of token characters is
refused; `url.Parse` refuses a control character before the fragment, and a
`%` that two hexadecimal digits do not follow in the path or in the
fragment. -/
def sampleNewRequest (method url : String) : Option String :=
  if method ≠ "" ∧ ¬ (method.toList.all isTokenRune = true) then
    some ("net/http: invalid method " ++ goQuote method.toList)
  else if (cut '#' url.toList).1.any (fun c => decide (c.toNat < 32 ∨ c.toNat = 127)) then
    some ("parse " ++ goQuote (cut '#' url.toList).1
      ++ ": net/url: invalid control character in URL")
  else
    match badEscape (cut '?' (cut '#' url.toList).1).1 with
    | some bad =>
      some ("parse " ++ goQuote (cut '#' url.toList).1 ++ ": invalid URL escape "
        ++ goQuote bad)
    | none =>
      match badEscape (cut '#' url.toList).2 with
      | some bad =>
        some ("parse " ++ goQuote url.toList ++ ": invalid URL escape " ++ goQuote bad)
      | none => none

/-- The states of the scanner of `encoding/json` (its `step` functions). -/
inductive ScanState where
  | beginValue | beginValueOrEmpty | beginStringOrEmpty | beginString | endValue | endTop
  | inString | inStringEsc | inStringEscU | inStringEscU1 | inStringEscU12 | inStringEscU123
  | neg | one | zero | dot | dot0 | exp | expSign | exp0
  | litT | litTr | litTru | litF | litFa | litFal | litFals | litN | litNu | litNul
deriving DecidableEq, Repr

/-- What the scanner is inside of: an object, before a key or after a value,
or an array. -/
inductive ParseState where
  | objectKey
  | objectValue
  | arrayValue
deriving DecidableEq, Repr

/-- The scanner: its state and the stack of what it is inside of, the
innermost first. -/
structure Scanner where
  step : ScanState
  parseState : List ParseState
deriving DecidableEq, Repr

/-- Go's `quoteChar`: a byte as the message of a syntax error shows it. -/
def quoteChar (c : Nat) : String :=
  if c = 39 then "'\\''"
  else if c = 34 then "'\"'"
  else if c = 92 then "'\\\\'"
  else if c = 7 then "'\\a'"
  else if c = 8 then "'\\b'"
  else if c = 12 then "'\\f'"
  else if c = 10 then "'\\n'"
  else if c = 13 then "'\\r'"
  else if c = 9 then "'\\t'"
  else if c = 11 then "'\\v'"
  else if c < 32 ∨ c = 127 then
    String.mk ['\'', '\\', 'x', lowerhex (c / 16), lowerhex (c % 16), '\'']
  else if (128 ≤ c ∧ c ≤ 160) ∨ c = 173 then
    String.mk ['\'', '\\', 'u', '0', '0', lowerhex (c / 16), lowerhex (c % 16), '\'']
  else String.mk ['\'', Char.ofNat c, '\'']

/-- The message of the scanner's `error`. -/
def scanError (c : Nat) (context : String) : String :=
  "invalid character " ++ quoteChar c ++ " " ++ context

/-- Whether a byte is a blank of JSON. -/
def isSpaceByte (c : Nat) : Bool :=
  c = 32 || c = 9 || c = 13 || c = 10

/-- Whether a byte is a hexadecimal digit. -/
def isHexByte (c : Nat) : Bool :=
  (48 ≤ c && c ≤ 57) || (97 ≤ c && c ≤ 102) || (65 ≤ c && c ≤ 70)

/-- Go's `popParseState`. -/
def popParseState (rest : List ParseState) : Scanner :=
  if rest = [] then { step := ScanState.endTop, parseState := [] }
  else { step := ScanState.endValue, parseState := rest }

/-- Go's `stateEndValue`. -/
def stateEndValue (stack : List ParseState) (c : Nat) : Except String Scanner :=
  match stack with
  | [] =>
    if isSpaceByte c then Except.ok { step := ScanState.endTop, parseState := [] }
    else Except.error (scanError c "after top-level value")
  | ps :: rest =>
    if isSpaceByte c then Except.ok { step := ScanState.endValue, parseState := ps :: rest }
    else
      match ps with
      | ParseState.objectKey =>
        if c = 58 then
          Except.ok { step := ScanState.beginValue, parseState := ParseState.objectValue :: rest }
        else Except.error (scanError c "after object key")
      | ParseState.objectValue =>
        if c = 44 then
          Except.ok { step := ScanState.beginString, parseState := ParseState.objectKey :: rest }
        else if c = 125 then Except.ok (popParseState rest)
        else Except.error (scanError c "after object key:value pair")
      | ParseState.arrayValue =>
        if c = 44 then
          Except.ok { step := ScanState.beginValue, parseState := ParseState.arrayValue :: rest }
        else if c = 93 then Except.ok (popParseState rest)
        else Except.error (scanError c "after array element")

/-- Go's `pushParseState`. -/
def pushParseState (stack : List ParseState) (c : Nat) (ps : ParseState) (next : ScanState) :
    Except String Scanner :=
  if (ps :: stack).length ≤ 10000 then Except.ok { step := next, parseState := ps :: stack }
  else Except.error (scanError c "exceeded max depth")

/-- Go's `stateBeginValue`. -/
def stateBeginValue (stack : List ParseState) (c : Nat) : Except String Scanner :=
  if isSpaceByte c then Except.ok { step := ScanState.beginValue, parseState := stack }
  else if c = 123 then
    pushParseState stack c ParseState.objectKey ScanState.beginStringOrEmpty
  else if c = 91 then
    pushParseState stack c ParseState.arrayValue ScanState.beginValueOrEmpty
  else if c = 34 then Except.ok { step := ScanState.inString, parseState := stack }
  else if c = 45 then Except.ok { step := ScanState.neg, parseState := stack }
  else if c = 48 then Except.ok { step := ScanState.zero, parseState := stack }
  else if c = 116 then Except.ok { step := ScanState.litT, parseState := stack }
  else if c = 102 then Except.ok { step := ScanState.litF, parseState := stack }
  else if c = 110 then Except.ok { step := ScanState.litN, parseState := stack }
  else if 49 ≤ c ∧ c ≤ 57 then Except.ok { step := ScanState.one, parseState := stack }
  else Except.error (scanError c "looking for beginning of value")

/-- A step that expects one given byte, inside a literal. -/
def expectByte (stack : List ParseState) (c want : Nat) (next : ScanState) (context : String) :
    Except String Scanner :=
  if c = want then Except.ok { step := next, parseState := stack }
  else Except.error (scanError c context)

/-- A step that expects a hexadecimal digit, inside a `\u` escape. -/
def expectHex (stack : List ParseState) (c : Nat) (next : ScanState) : Except String Scanner :=
  if isHexByte c then Except.ok { step := next, parseState := stack }
  else Except.error (scanError c "in \\u hexadecimal character escape")

/-- One step of the scanner on the byte `c`. -/
def Scanner.next (s : Scanner) (c : Nat) : Except String Scanner :=
  match s.step with
  | ScanState.beginValue => stateBeginValue s.parseState c
  | ScanState.beginValueOrEmpty =>
    if isSpaceByte c then Except.ok s
    else if c = 93 then stateEndValue s.parseState c
    else stateBeginValue s.parseState c
  | ScanState.beginStringOrEmpty =>
    if isSpaceByte c then Except.ok s
    else if c = 125 then
      stateEndValue (ParseState.objectValue :: s.parseState.tail) c
    else if c = 34 then Except.ok { s with step := ScanState.inString }
    else Except.error (scanError c "looking for beginning of object key string")
  | ScanState.beginString =>
    if isSpaceByte c then Except.ok s
    else if c = 34 then Except.ok { s with step := ScanState.inString }
    else Except.error (scanError c "looking for beginning of object key string")
  | ScanState.endValue => stateEndValue s.parseState c
  | ScanState.endTop =>
    if isSpaceByte c then Except.ok s
    else Except.error (scanError c "after top-level value")
  | ScanState.inString =>
    if c = 34 then Except.ok { s with step := ScanState.endValue }
    else if c = 92 then Except.ok { s with step := ScanState.inStringEsc }
    else if c < 32 then Except.error (scanError c "in string literal")
    else Except.ok s
  | ScanState.inStringEsc =>
    if c = 98 ∨ c = 102 ∨ c = 110 ∨ c = 114 ∨ c = 116 ∨ c = 92 ∨ c = 47 ∨ c = 34 then
      Except.ok { s with step := ScanState.inString }
    else if c = 117 then Except.ok { s with step := ScanState.inStringEscU }
    else Except.error (scanError c "in string escape code")
  | ScanState.inStringEscU => expectHex s.parseState c ScanState.inStringEscU1
  | ScanState.inStringEscU1 => expectHex s.parseState c ScanState.inStringEscU12
  | ScanState.inStringEscU12 => expectHex s.parseState c ScanState.inStringEscU123
  | ScanState.inStringEscU123 => expectHex s.parseState c ScanState.inString
  | ScanState.neg =>
    if c = 48 then Except.ok { s with step := ScanState.zero }
    else if 49 ≤ c ∧ c ≤ 57 then Except.ok { s with step := ScanState.one }
    else Except.error (scanError c "in numeric literal")
  | ScanState.one =>
    if 48 ≤ c ∧ c ≤ 57 then Except.ok s
    else if c = 46 then Except.ok { s with step := ScanState.dot }
    else if c = 101 ∨ c = 69 then Except.ok { s with step := ScanState.exp }
    else stateEndValue s.parseState c
  | ScanState.zero =>
    if c = 46 then Except.ok { s with step := ScanState.dot }
    else if c = 101 ∨ c = 69 then Except.ok { s with step := ScanState.exp }
    else stateEndValue s.parseState c
  | ScanState.dot =>
    if 48 ≤ c ∧ c ≤ 57 then Except.ok { s with step := ScanState.dot0 }
    else Except.error (scanError c "after decimal point in numeric literal")
  | ScanState.dot0 =>
    if 48 ≤ c ∧ c ≤ 57 then Except.ok s
    else if c = 101 ∨ c = 69 then Except.ok { s with step := ScanState.exp }
    else stateEndValue s.parseState c
  | ScanState.exp =>
    if c = 43 ∨ c = 45 then Except.ok { s with step := ScanState.expSign }
    else if 48 ≤ c ∧ c ≤ 57 then Except.ok { s with step := ScanState.exp0 }
    else Except.error (scanError c "in exponent of numeric literal")
  | ScanState.expSign =>
    if 48 ≤ c ∧ c ≤ 57 then Except.ok { s with step := ScanState.exp0 }
    else Except.error (scanError c "in exponent of numeric literal")
  | ScanState.exp0 =>
    if 48 ≤ c ∧ c ≤ 57 then Except.ok s
    else stateEndValue s.parseState c
  | ScanState.litT => expectByte s.parseState c 114 ScanState.litTr "in literal true (expecting 'r')"
  | ScanState.litTr => expectByte s.parseState c 117 ScanState.litTru "in literal true (expecting 'u')"
  | ScanState.litTru => expectByte s.parseState c 101 ScanState.endValue "in literal true (expecting 'e')"
  | ScanState.litF => expectByte s.parseState c 97 ScanState.litFa "in literal false (expecting 'a')"
  | ScanState.litFa => expectByte s.parseState c 108 ScanState.litFal "in literal false (expecting 'l')"
  | ScanState.litFal => expectByte s.parseState c 115 ScanState.litFals "in literal false (expecting 's')"
  | ScanState.litFals => expectByte s.parseState c 101 ScanState.endValue "in literal false (expecting 'e')"
  | ScanState.litN => expectByte s.parseState c 117 ScanState.litNu "in literal null (expecting 'u')"
  | ScanState.litNu => expectByte s.parseState c 108 ScanState.litNul "in literal null (expecting 'l')"
  | ScanState.litNul => expectByte s.parseState c 108 ScanState.endValue "in literal null (expecting 'l')"

/-- The scanner run over the bytes of a text. -/
def scanBytes (s : Scanner) : List Nat → Except String Scanner
  | [] => Except.ok s
  | c :: rest =>
    match s.next c with
    | Except.error msg => Except.error msg
    | Except.ok s1 => scanBytes s1 rest

/-- Go's `checkValid`: the message of the syntax error of a text, if it has
one.  At the end of the text the scanner is given a blank; a text that is then
not complete ends unexpectedly. -/
def checkValid (text : String) : Option String :=
  match scanBytes { step := ScanState.beginValue, parseState := [] } (utf8Bytes text) with
  | Except.error msg => some msg
  | Except.ok s =>
    if s.step = ScanState.endTop then none
    else
      match s.next 32 with
      | Except.error msg => some msg
      | Except.ok s1 =>
        if s1.step = ScanState.endTop then none else some "unexpected end of JSON input"

/-- The method `Error()` of the errors of `json.Unmarshal` (Go 1.21): for a
text that is not valid JSON the message of the scanner, a `SyntaxError`; for a
value that does not fit its Go type the message of `UnmarshalTypeError`, which
names the struct type and the JSON name of the field when the value is that of
a field of a named struct type, and the Go type of the destination
otherwise. -/
def sampleErrorText : JsonError → String
  | JsonError.invalid text => (checkValid text).getD "unexpected end of JSON input"
  | JsonError.mismatch value goType struct field =>
    if struct ≠ "" ∨ field ≠ "" then
      "json: cannot unmarshal " ++ value ++ " into Go struct field " ++ struct ++ "." ++ field
        ++ " of type " ++ goType
    else "json: cannot unmarshal " ++ value ++ " into Go value of type " ++ goType

/-- An environment in which the token step returns `token`, and the platform
answers each request with the HTTP status `status` and the body `body`; the
destination is a `*TicketInfo`. -/
def sampleEnv (token : Except String String) (status : Int) (body : String) :
    Env SamplePayload TicketInfo :=
  { GetAccessTokenFromCache := fun cli => (cli, token),
    Marshal := sampleMarshal,
    NewRequestError := sampleNewRequest,
    Do := fun _ => Except.ok { StatusCode := status, Body := Except.ok body },
    jsonErrorText := sampleErrorText,
    storeDest := storeStruct ticketInfoType }

/-- A Token Fetcher that gives the token `FRESH` with a TTL of two hours. -/
def sampleFetch : AgentClient → Except String (String × Nat) :=
  fun _ => Except.ok ("FRESH", 7200)

/-- A client with credentials and no token. -/
def sampleClient : AgentClient := NewAgentClient "CORP1" 1 "S"

/-- An environment whose token step is the one of the spec, with a fetcher
that would give `FRESH` for two hours, and whose transport refuses every
connection. -/
def offlineEnv (now : Time) : Env SamplePayload TicketInfo :=
  { GetAccessTokenFromCache := fun cli =>
      (GetAccessTokenFromCache (fun _ => Except.ok ("FRESH", 7200)) now cli).toPair,
    Marshal := sampleMarshal,
    NewRequestError := sampleNewRequest,
    Do := fun _ => Except.error "dial tcp: connection refused",
    jsonErrorText := sampleErrorText,
    storeDest := storeStruct ticketInfoType }

/-- A client holding the token `CACHED`, valid until the instant 7200. -/
def cachedClient : AgentClient :=
  { CorpId := "CORP1", AgentId := 1, Secret := "S",
    AccessToken := "CACHED", AccessTokenExpiresAt := 7200 }

/-! ## Theorems -/

/-- Case analysis of `requestWithToken`: a property of its outcome holds as soon
as it holds of the outcome of each of the nine ways the function returns. -/
theorem requestWithToken_cases {P D : Type} (env : Env P D) (cli : AgentClient)
    (method path : String) (query : Option Values) (reqData : P) (respInfo : D)
    (motive : Outcome P D → Prop)
    (token_failed : ∀ cli1 cause,
      env.GetAccessTokenFromCache cli = (cli1, Except.error cause) →
      motive { err := some ("获取Token错误: " ++ cause), cli := cli1, dest := respInfo,
               trace := [Event.getToken] })
    (encoding_failed : ∀ cli1 token cause,
      env.GetAccessTokenFromCache cli = (cli1, Except.ok token) →
      env.Marshal reqData = Except.error cause →
      motive { err := some ("编码参数错误: " ++ cause), cli := cli1, dest := respInfo,
               trace := [Event.getToken, Event.marshal reqData] })
    (build_failed : ∀ cli1 token buf cause,
      env.GetAccessTokenFromCache cli = (cli1, Except.ok token) →
      env.Marshal reqData = Except.ok buf →
      env.NewRequestError method (requestURL path query token) = some cause →
      motive { err := some ("构造请求错误: " ++ cause), cli := cli1, dest := respInfo,
               trace := [Event.getToken, Event.marshal reqData,
                 Event.newRequest method (requestURL path query token) buf] })
    (transport_failed : ∀ cli1 token buf cause,
      env.GetAccessTokenFromCache cli = (cli1, Except.ok token) →
      env.Marshal reqData = Except.ok buf →
      env.NewRequestError method (requestURL path query token) = none →
      env.Do (builtRequest method path query token buf) = Except.error cause →
      motive { err := some ("执行请求错误: " ++ cause), cli := cli1, dest := respInfo,
               trace := [Event.getToken, Event.marshal reqData,
                 Event.newRequest method (requestURL path query token) buf,
                 Event.send (builtRequest method path query token buf)] })
    (read_failed : ∀ cli1 token buf resp cause,
      env.GetAccessTokenFromCache cli = (cli1, Except.ok token) →
      env.Marshal reqData = Except.ok buf →
      env.NewRequestError method (requestURL path query token) = none →
      env.Do (builtRequest method path query token buf) = Except.ok resp →
      resp.Body = Except.error cause →
      motive { err := some ("读取响应错误: " ++ cause), cli := cli1, dest := respInfo,
               trace := [Event.getToken, Event.marshal reqData,
                 Event.newRequest method (requestURL path query token) buf,
                 Event.send (builtRequest method path query token buf), Event.readBody] })
    (envelope_failed : ∀ cli1 token buf resp body info e,
      env.GetAccessTokenFromCache cli = (cli1, Except.ok token) →
      env.Marshal reqData = Except.ok buf →
      env.NewRequestError method (requestURL path query token) = none →
      env.Do (builtRequest method path query token buf) = Except.ok resp →
      resp.Body = Except.ok body →
      Unmarshal (storeStruct commonResponseType) body { ErrCode := 0, ErrMsg := "" }
        = (info, some e) →
      motive { err := some ("解析响应错误: " ++ env.jsonErrorText e), cli := cli1,
               dest := respInfo,
               trace := [Event.getToken, Event.marshal reqData,
                 Event.newRequest method (requestURL path query token) buf,
                 Event.send (builtRequest method path query token buf), Event.readBody,
                 Event.unmarshalEnvelope body] })
    (platform_error : ∀ cli1 token buf resp body info,
      env.GetAccessTokenFromCache cli = (cli1, Except.ok token) →
      env.Marshal reqData = Except.ok buf →
      env.NewRequestError method (requestURL path query token) = none →
      env.Do (builtRequest method path query token buf) = Except.ok resp →
      resp.Body = Except.ok body →
      Unmarshal (storeStruct commonResponseType) body { ErrCode := 0, ErrMsg := "" }
        = (info, none) →
      info.ErrCode ≠ 0 →
      motive { err := some ("API错误: [" ++ toString info.ErrCode ++ "]" ++ info.ErrMsg),
               cli := cli1, dest := respInfo,
               trace := [Event.getToken, Event.marshal reqData,
                 Event.newRequest method (requestURL path query token) buf,
                 Event.send (builtRequest method path query token buf), Event.readBody,
                 Event.unmarshalEnvelope body] })
    (decode_failed : ∀ cli1 token buf resp body info dest e,
      env.GetAccessTokenFromCache cli = (cli1, Except.ok token) →
      env.Marshal reqData = Except.ok buf →
      env.NewRequestError method (requestURL path query token) = none →
      env.Do (builtRequest method path query token buf) = Except.ok resp →
      resp.Body = Except.ok body →
      Unmarshal (storeStruct commonResponseType) body { ErrCode := 0, ErrMsg := "" }
        = (info, none) →
      info.ErrCode = 0 →
      Unmarshal env.storeDest body respInfo = (dest, some e) →
      motive { err := some ("解析响应错误: " ++ env.jsonErrorText e), cli := cli1, dest := dest,
               trace := [Event.getToken, Event.marshal reqData,
                 Event.newRequest method (requestURL path query token) buf,
                 Event.send (builtRequest method path query token buf), Event.readBody,
                 Event.unmarshalEnvelope body, Event.unmarshalDest body] })
    (success : ∀ cli1 token buf resp body info dest,
      env.GetAccessTokenFromCache cli = (cli1, Except.ok token) →
      env.Marshal reqData = Except.ok buf →
      env.NewRequestError method (requestURL path query token) = none →
      env.Do (builtRequest method path query token buf) = Except.ok resp →
      resp.Body = Except.ok body →
      Unmarshal (storeStruct commonResponseType) body { ErrCode := 0, ErrMsg := "" }
        = (info, none) →
      info.ErrCode = 0 →
      Unmarshal env.storeDest body respInfo = (dest, none) →
      motive { err := none, cli := cli1, dest := dest,
               trace := [Event.getToken, Event.marshal reqData,
                 Event.newRequest method (requestURL path query token) buf,
                 Event.send (builtRequest method path query token buf), Event.readBody,
                 Event.unmarshalEnvelope body, Event.unmarshalDest body] }) :
    motive (requestWithToken env cli method path query reqData respInfo) := by
  rcases htoken : env.GetAccessTokenFromCache cli with ⟨cli1, _ | token⟩
  · simpa [requestWithToken, htoken] using token_failed _ _ htoken
  rcases hmarshal : env.Marshal reqData with _ | buf
  · simpa [requestWithToken, htoken, hmarshal] using encoding_failed _ _ _ htoken hmarshal
  rcases hbuild : env.NewRequestError method (requestURL path query token)
    with _ | cause
  swap
  · have h := build_failed _ _ _ _ htoken hmarshal hbuild
    simp only [builtRequest, requestURL] at hbuild h
    simpa [requestWithToken, htoken, hmarshal, hbuild] using h
  rcases hdo : env.Do (builtRequest method path query token buf) with _ | resp
  · have h := transport_failed _ _ _ _ htoken hmarshal hbuild hdo
    simp only [builtRequest, requestURL] at hbuild hdo h
    simpa [requestWithToken, htoken, hmarshal, hbuild, hdo] using h
  rcases hbody : resp.Body with _ | body
  · have h := read_failed _ _ _ _ _ htoken hmarshal hbuild hdo hbody
    simp only [builtRequest, requestURL] at hbuild hdo h
    simpa [requestWithToken, htoken, hmarshal, hbuild, hdo, hbody] using h
  rcases henv : Unmarshal (storeStruct commonResponseType) body
      ({ ErrCode := 0, ErrMsg := "" } : CommonResponse) with ⟨info, _ | e⟩
  swap
  · have h := envelope_failed _ _ _ _ _ _ _ htoken hmarshal hbuild hdo hbody henv
    simp only [builtRequest, requestURL] at hbuild hdo h
    simpa [requestWithToken, htoken, hmarshal, hbuild, hdo, hbody, henv] using h
  by_cases hcode : info.ErrCode = 0
  swap
  · have h := platform_error _ _ _ _ _ _ htoken hmarshal hbuild hdo hbody henv hcode
    simp only [builtRequest, requestURL] at hbuild hdo h
    simpa [requestWithToken, htoken, hmarshal, hbuild, hdo, hbody, henv, hcode] using h
  rcases hdest : Unmarshal env.storeDest body respInfo with ⟨dest, _ | e⟩
  · have h := success _ _ _ _ _ _ _ htoken hmarshal hbuild hdo hbody henv hcode hdest
    simp only [builtRequest, requestURL] at hbuild hdo h
    simpa [requestWithToken, htoken, hmarshal, hbuild, hdo, hbody, henv, hcode, hdest] using h
  · have h := decode_failed _ _ _ _ _ _ _ _ htoken hmarshal hbuild hdo hbody henv hcode hdest
    simp only [builtRequest, requestURL] at hbuild hdo h
    simpa [requestWithToken, htoken, hmarshal, hbuild, hdo, hbody, henv, hcode, hdest] using h

/-- No step after the token step writes the client: the client a call leaves is
the one the token step leaves. -/
theorem cli_after_token_step {P D : Type} (env : Env P D) (cli : AgentClient)
    (method path : String) (query : Option Values) (reqData : P) (respInfo : D) :
    (requestWithToken env cli method path query reqData respInfo).cli
      = (env.GetAccessTokenFromCache cli).1 := by
  apply requestWithToken_cases env cli method path query reqData respInfo
    (fun out => out.cli = (env.GetAccessTokenFromCache cli).1)
  all_goals intros
  all_goals simp_all

/-- C1, envelope precedence: when the token step, the encoding, the building of
the request, the transport and the reading of the body succeed and the body
decodes as the envelope with a nonzero code `c` and message `m`, the error
returned is `API错误: [c]m`, whatever the HTTP status; the destination is left as
it was and the body is not decoded into it. -/
theorem envelope_precedence {P D : Type} (env : Env P D) (cli cli1 : AgentClient)
    (method path : String) (query : Option Values) (reqData : P) (respInfo : D)
    (token buf body : String) (status : Int) (c : Int) (m : String)
    (htoken : env.GetAccessTokenFromCache cli = (cli1, Except.ok token))
    (hmarshal : env.Marshal reqData = Except.ok buf)
    (hbuild : env.NewRequestError method (requestURL path query token) = none)
    (hdo : env.Do (builtRequest method path query token buf)
      = Except.ok { StatusCode := status, Body := Except.ok body })
    (henvelope : Unmarshal (storeStruct commonResponseType) body { ErrCode := 0, ErrMsg := "" }
      = ({ ErrCode := c, ErrMsg := m }, none))
    (hc : c ≠ 0) :
    (requestWithToken env cli method path query reqData respInfo).err
        = some ("API错误: [" ++ toString c ++ "]" ++ m)
      ∧ (requestWithToken env cli method path query reqData respInfo).dest = respInfo
      ∧ (requestWithToken env cli method path query reqData respInfo).trace.any
          Event.isUnmarshalDest = false := by
  simp only [builtRequest, requestURL] at hbuild hdo
  simp [requestWithToken, htoken, hmarshal, hbuild, hdo, henvelope, hc, Event.isUnmarshalDest]

/-- The example of the spec for C1: the body
`{"errcode":40001,"errmsg":"invalid credential"}` with the status 200. -/
theorem envelope_precedence_witness :
    (requestWithToken (sampleEnv (Except.ok "TOK") 200
        "\x7b\"errcode\":40001,\"errmsg\":\"invalid credential\"\x7d")
        sampleClient "GET" "/ticket/get" none SamplePayload.null
        { Ticket := "", ExpiresIn := 0 }).err
        = some ("API错误: [" ++ toString (40001 : Int) ++ "]" ++ "invalid credential")
      ∧ (requestWithToken (sampleEnv (Except.ok "TOK") 200
        "\x7b\"errcode\":40001,\"errmsg\":\"invalid credential\"\x7d")
        sampleClient "GET" "/ticket/get" none SamplePayload.null
        { Ticket := "", ExpiresIn := 0 }).dest = { Ticket := "", ExpiresIn := 0 }
      ∧ (requestWithToken (sampleEnv (Except.ok "TOK") 200
        "\x7b\"errcode\":40001,\"errmsg\":\"invalid credential\"\x7d")
        sampleClient "GET" "/ticket/get" none SamplePayload.null
        { Ticket := "", ExpiresIn := 0 }).trace.any Event.isUnmarshalDest = false :=
  envelope_precedence _ sampleClient sampleClient "GET" "/ticket/get" none SamplePayload.null _
    "TOK" "null" _ 200 40001 "invalid credential" rfl rfl rfl rfl (by decide) (by decide)

/-- C2, token failure short-circuits: when the token step fails with `cause`,
the error returned is `获取Token错误: cause`, the token step is the only call made
(no serialization of the payload, no request built, none sent), whatever the
method, path, query and payload, and whatever `json.Marshal` would return. -/
theorem token_failure_short_circuits {P D : Type} (env : Env P D) (cli cli1 : AgentClient)
    (method path : String) (query : Option Values) (reqData : P) (respInfo : D)
    (cause : String)
    (htoken : env.GetAccessTokenFromCache cli = (cli1, Except.error cause)) :
    (requestWithToken env cli method path query reqData respInfo).err
        = some ("获取Token错误: " ++ cause)
      ∧ (requestWithToken env cli method path query reqData respInfo).trace = [Event.getToken]
      ∧ (requestWithToken env cli method path query reqData respInfo).trace.any
          Event.isOutbound = false
      ∧ (requestWithToken env cli method path query reqData respInfo).dest = respInfo := by
  simp [requestWithToken, htoken, Event.isOutbound]

/-- A failing token step with a payload that cannot be serialized. -/
theorem token_failure_short_circuits_witness :
    sampleMarshal SamplePayload.channel = Except.error "json: unsupported type: chan int"
      ∧ (requestWithToken (sampleEnv (Except.error "dial tcp: i/o timeout") 200 "null")
          sampleClient "POST" "/message/send" none SamplePayload.channel
          { Ticket := "", ExpiresIn := 0 }).err
        = some ("获取Token错误: " ++ "dial tcp: i/o timeout")
      ∧ (requestWithToken (sampleEnv (Except.error "dial tcp: i/o timeout") 200 "null")
          sampleClient "POST" "/message/send" none SamplePayload.channel
          { Ticket := "", ExpiresIn := 0 }).trace = [Event.getToken]
      ∧ (requestWithToken (sampleEnv (Except.error "dial tcp: i/o timeout") 200 "null")
          sampleClient "POST" "/message/send" none SamplePayload.channel
          { Ticket := "", ExpiresIn := 0 }).trace.any Event.isOutbound = false
      ∧ (requestWithToken (sampleEnv (Except.error "dial tcp: i/o timeout") 200 "null")
          sampleClient "POST" "/message/send" none SamplePayload.channel
          { Ticket := "", ExpiresIn := 0 }).dest = { Ticket := "", ExpiresIn := 0 } :=
  ⟨rfl, token_failure_short_circuits _ sampleClient sampleClient "POST" "/message/send" none
    SamplePayload.channel _ "dial tcp: i/o timeout" rfl⟩

/-- C6, failure isolation: with the token step of the spec and a cached token
that is valid at the time of the call, a transport failure `cause` of the
outbound call gives the error `执行请求错误: cause`, no token is fetched, and
`AccessToken` and `AccessTokenExpiresAt` are after the call what they were
before it; and for every environment and every outcome, the client a call
leaves is the one its token step leaves: no later step writes it. -/
theorem failure_isolation {P D : Type} (env : Env P D)
    (FetchToken : AgentClient → Except String (String × Nat)) (now : Time)
    (cli : AgentClient) (method path : String) (query : Option Values) (reqData : P)
    (respInfo : D) (buf cause : String)
    (hstep : env.GetAccessTokenFromCache cli
      = (GetAccessTokenFromCache FetchToken now cli).toPair)
    (hvalid : now < cli.AccessTokenExpiresAt)
    (hmarshal : env.Marshal reqData = Except.ok buf)
    (hbuild : env.NewRequestError method (requestURL path query cli.AccessToken) = none)
    (hdo : env.Do (builtRequest method path query cli.AccessToken buf) = Except.error cause) :
    (requestWithToken env cli method path query reqData respInfo).err
        = some ("执行请求错误: " ++ cause)
      ∧ (requestWithToken env cli method path query reqData respInfo).cli.AccessToken
        = cli.AccessToken
      ∧ (requestWithToken env cli method path query reqData respInfo).cli.AccessTokenExpiresAt
        = cli.AccessTokenExpiresAt
      ∧ (GetAccessTokenFromCache FetchToken now cli).fetches = 0
      ∧ ∀ (env2 : Env P D) (cli2 : AgentClient) (method2 path2 : String)
          (query2 : Option Values) (reqData2 : P) (respInfo2 : D),
          (requestWithToken env2 cli2 method2 path2 query2 reqData2 respInfo2).cli
            = (env2.GetAccessTokenFromCache cli2).1 := by
  have hcache : GetAccessTokenFromCache FetchToken now cli
      = { cli := cli, result := Except.ok cli.AccessToken, fetches := 0 } := by
    have h1 : ¬ ((cli.AccessToken = "" ∧ cli.AccessTokenExpiresAt = 0)
        ∨ cli.AccessTokenExpiresAt ≤ now) := by
      intro h
      rcases h with ⟨_, h0⟩ | h
      · rw [h0] at hvalid
        exact Nat.not_lt_zero _ hvalid
      · exact Nat.not_le.mpr hvalid h
    simp [GetAccessTokenFromCache, h1]
  rw [hcache] at hstep
  simp only [TokenStep.toPair] at hstep
  simp only [builtRequest, requestURL] at hbuild hdo
  refine ⟨?_, ?_, ?_, ?_, ?_⟩
  · simp [requestWithToken, hstep, hmarshal, hbuild, hdo]
  · rw [cli_after_token_step, hstep]
  · rw [cli_after_token_step, hstep]
  · rw [hcache]
  · intro env2 cli2 method2 path2 query2 reqData2 respInfo2
    exact cli_after_token_step env2 cli2 method2 path2 query2 reqData2 respInfo2

/-- A refused connection at the instant 100, with a token valid until 7200. -/
theorem failure_isolation_witness :
    (requestWithToken (offlineEnv 100) cachedClient "POST" "/message/send" none
        SamplePayload.fooBar { Ticket := "", ExpiresIn := 0 }).err
        = some ("执行请求错误: " ++ "dial tcp: connection refused")
      ∧ (requestWithToken (offlineEnv 100) cachedClient "POST" "/message/send" none
        SamplePayload.fooBar { Ticket := "", ExpiresIn := 0 }).cli.AccessToken
        = cachedClient.AccessToken
      ∧ (requestWithToken (offlineEnv 100) cachedClient "POST" "/message/send" none
        SamplePayload.fooBar { Ticket := "", ExpiresIn := 0 }).cli.AccessTokenExpiresAt
        = cachedClient.AccessTokenExpiresAt
      ∧ (GetAccessTokenFromCache (fun _ => Except.ok ("FRESH", 7200)) 100 cachedClient).fetches
        = 0
      ∧ ∀ (env2 : Env SamplePayload TicketInfo) (cli2 : AgentClient) (method2 path2 : String)
          (query2 : Option Values) (reqData2 : SamplePayload) (respInfo2 : TicketInfo),
          (requestWithToken env2 cli2 method2 path2 query2 reqData2 respInfo2).cli
            = (env2.GetAccessTokenFromCache cli2).1 :=
  failure_isolation (offlineEnv 100) (fun _ => Except.ok ("FRESH", 7200)) 100 cachedClient
    "POST" "/message/send" none SamplePayload.fooBar { Ticket := "", ExpiresIn := 0 }
    "\x7b\"foo\":\"bar\"\x7d" "dial tcp: connection refused" rfl (by decide) rfl rfl rfl

/-- The message of an error of kind `k` is read back as of kind `k`, whatever
its cause: no head of a kind starts the message of another. -/
theorem kindOf_head (k : ErrorKind) (cause : String) : kindOf (k.head ++ cause) = some k := by
  cases k <;>
    simp [kindOf, ErrorKind.all, ErrorKind.head, List.find?, String.toList, String.data_append,
      List.isPrefixOf]

/-- Two messages of different kinds differ. -/
theorem head_injective (k1 k2 : ErrorKind) (c1 c2 : String)
    (h : k1.head ++ c1 = k2.head ++ c2) : k1 = k2 := by
  have h1 := kindOf_head k1 c1
  rw [h, kindOf_head k2 c2] at h1
  exact (Option.some.inj h1).symm

/-- C5 as stated fails: a method that is not an HTTP token makes
`http.NewRequest` fail, and the error returned, `构造请求错误: ...`, is of none of
the six kinds of the spec. -/
theorem request_build_error_outside_taxonomy :
    (requestWithToken (sampleEnv (Except.ok "TOK") 200 "null") sampleClient "BAD METHOD"
        "/ticket/get" none SamplePayload.null { Ticket := "", ExpiresIn := 0 }).err
        = some "构造请求错误: net/http: invalid method \"BAD METHOD\""
      ∧ ∀ (k : ErrorKind) (cause : String), k.inSpec = true →
          "构造请求错误: net/http: invalid method \"BAD METHOD\"" ≠ k.head ++ cause := by
  refine ⟨by decide, ?_⟩
  intro k cause hk h
  have h1 : ErrorKind.RequestBuildFailed = k :=
    head_injective ErrorKind.RequestBuildFailed k "net/http: invalid method \"BAD METHOD\""
      cause h
  rw [← h1] at hk
  exact absurd hk (by decide)

/-- C5, amended: every error `requestWithToken` returns is of exactly one of
seven kinds, the six of the spec and the failure to build the request
(`构造请求错误`): its message is the head of that kind followed by a cause, the
caller reads the kind back from the message, and the messages of two different
kinds are never equal. -/
theorem closed_error_taxonomy {P D : Type} (env : Env P D) (cli : AgentClient)
    (method path : String) (query : Option Values) (reqData : P) (respInfo : D)
    (msg : String)
    (herr : (requestWithToken env cli method path query reqData respInfo).err = some msg) :
    (∃ (k : ErrorKind) (cause : String), msg = k.head ++ cause ∧ kindOf msg = some k
        ∧ ∀ (k2 : ErrorKind) (cause2 : String), msg = k2.head ++ cause2 → k2 = k)
      ∧ ∀ (k1 k2 : ErrorKind) (c1 c2 : String), k1 ≠ k2 → k1.head ++ c1 ≠ k2.head ++ c2 := by
  have key : ∀ (k : ErrorKind) (cause : String), msg = k.head ++ cause →
      ∃ (k : ErrorKind) (cause : String), msg = k.head ++ cause ∧ kindOf msg = some k
        ∧ ∀ (k2 : ErrorKind) (cause2 : String), msg = k2.head ++ cause2 → k2 = k := by
    intro k cause hmsg
    refine ⟨k, cause, hmsg, ?_, ?_⟩
    · rw [hmsg]
      exact kindOf_head k cause
    · intro k2 cause2 h2
      exact head_injective k2 k cause2 cause (h2.symm.trans hmsg)
  refine ⟨?_, ?_⟩
  · revert herr
    apply requestWithToken_cases env cli method path query reqData respInfo
      (fun out => out.err = some msg →
        ∃ (k : ErrorKind) (cause : String), msg = k.head ++ cause ∧ kindOf msg = some k
          ∧ ∀ (k2 : ErrorKind) (cause2 : String), msg = k2.head ++ cause2 → k2 = k)
    · intro cli1 cause _ h
      exact key ErrorKind.TokenAcquisitionFailed cause (Option.some.inj h).symm
    · intro cli1 token cause _ _ h
      exact key ErrorKind.RequestEncodingFailed cause (Option.some.inj h).symm
    · intro cli1 token buf cause _ _ _ h
      exact key ErrorKind.RequestBuildFailed cause (Option.some.inj h).symm
    · intro cli1 token buf cause _ _ _ _ h
      exact key ErrorKind.TransportFailed cause (Option.some.inj h).symm
    · intro cli1 token buf resp cause _ _ _ _ _ h
      exact key ErrorKind.ResponseReadFailed cause (Option.some.inj h).symm
    · intro cli1 token buf resp body info e _ _ _ _ _ _ h
      exact key ErrorKind.ResponseDecodeFailed (env.jsonErrorText e) (Option.some.inj h).symm
    · intro cli1 token buf resp body info _ _ _ _ _ _ _ h
      refine key ErrorKind.PlatformError (toString info.ErrCode ++ "]" ++ info.ErrMsg) ?_
      rw [← Option.some.inj h]
      simp [ErrorKind.head, String.append_assoc]
    · intro cli1 token buf resp body info dest e _ _ _ _ _ _ _ _ h
      exact key ErrorKind.ResponseDecodeFailed (env.jsonErrorText e) (Option.some.inj h).symm
    · intro cli1 token buf resp body info dest _ _ _ _ _ _ _ _ h
      exact absurd h (by simp)
  · intro k1 k2 c1 c2 hne h
    exact hne (head_injective k1 k2 c1 c2 h)

/-- The platform error of the spec's example is read back as a platform
error. -/
theorem closed_error_taxonomy_witness :
    (∃ (k : ErrorKind) (cause : String),
        "API错误: [40001]invalid credential" = k.head ++ cause
        ∧ kindOf "API错误: [40001]invalid credential" = some k
        ∧ ∀ (k2 : ErrorKind) (cause2 : String),
            "API错误: [40001]invalid credential" = k2.head ++ cause2 → k2 = k)
      ∧ ∀ (k1 k2 : ErrorKind) (c1 c2 : String), k1 ≠ k2 → k1.head ++ c1 ≠ k2.head ++ c2 :=
  closed_error_taxonomy
    (sampleEnv (Except.ok "TOK") 200 "\x7b\"errcode\":40001,\"errmsg\":\"invalid credential\"\x7d")
    sampleClient "GET" "/ticket/get" none SamplePayload.null { Ticket := "", ExpiresIn := 0 }
    "API错误: [40001]invalid credential" (by decide)

/-- A key selects one of the two fields of `CommonResponse`. -/
theorem findField_commonResponse (key name : String) (f : Field CommonResponse)
    (h : findField commonResponseType key = some (name, f)) :
    (name = "ErrCode" ∧ f = Field.int (fun info n => { info with ErrCode := n }))
      ∨ (name = "ErrMsg" ∧ f = Field.string (fun info m => { info with ErrMsg := m })) := by
  have hmem : (name, f) ∈ commonResponseType.fields := by
    unfold findField at h
    split at h
    · next g hg =>
      rw [← Option.some.inj h]
      exact List.mem_of_find?_eq_some hg
    · exact List.mem_of_find?_eq_some h
  simp only [commonResponseType, List.mem_cons, Prod.mk.injEq, List.mem_singleton,
    List.not_mem_nil, or_false] at hmem
  exact hmem

/-- Quiet members leave the code of the envelope as it is and raise no error. -/
theorem storeMembers_quiet (members : List (String × JSON)) (info : CommonResponse)
    (h : members.all quietMember = true) :
    (storeMembers commonResponseType members info none).2 = none
      ∧ (storeMembers commonResponseType members info none).1.ErrCode = info.ErrCode := by
  induction members generalizing info with
  | nil => simp [storeMembers]
  | cons m rest ih =>
    obtain ⟨key, v⟩ := m
    simp only [List.all_cons, Bool.and_eq_true] at h
    obtain ⟨hm, hrest⟩ := h
    unfold storeMembers
    unfold quietMember at hm
    cases hf : findField commonResponseType key with
    | none => simpa using ih info hrest
    | some nf =>
      obtain ⟨name, f⟩ := nf
      rw [hf] at hm
      simp only [Bool.and_eq_true, beq_iff_eq] at hm
      obtain ⟨hname, hv⟩ := hm
      rcases findField_commonResponse key name f hf with ⟨h1, _⟩ | ⟨_, h2⟩
      · rw [hname] at h1
        exact absurd h1 (by decide)
      · subst h2
        cases v with
        | null => simpa [storeField] using ih info hrest
        | str x =>
          have := ih { info with ErrMsg := x } hrest
          simpa [storeField] using this
        | bool b => simp at hv
        | num lit => simp at hv
        | arr items => simp at hv
        | obj ms => simp at hv

/-- A body holding a document without `ErrCode` passes the envelope check with
the code zero. -/
theorem unmarshal_noErrCode (body : String) (j : JSON) (hj : parseJSON body = some j)
    (h : noErrCode j = true) :
    ∃ info : CommonResponse,
      Unmarshal (storeStruct commonResponseType) body { ErrCode := 0, ErrMsg := "" }
        = (info, none) ∧ info.ErrCode = 0 := by
  unfold Unmarshal
  rw [hj]
  cases j with
  | null => exact ⟨_, rfl, rfl⟩
  | obj members =>
    have hq := storeMembers_quiet members { ErrCode := 0, ErrMsg := "" } h
    refine ⟨(storeMembers commonResponseType members { ErrCode := 0, ErrMsg := "" } none).1,
      ?_, hq.2⟩
    simp only [storeStruct]
    exact Prod.ext rfl hq.1
  | bool b => simp [noErrCode] at h
  | num lit => simp [noErrCode] at h
  | str x => simp [noErrCode] at h
  | arr items => simp [noErrCode] at h

/-- C10 as stated fails: the body `[]` is valid JSON and has no `errcode`
field, yet the call fails with a decode error (here with the status 500). -/
theorem array_body_not_success :
    parseJSON "[]" = some (JSON.arr [])
      ∧ (requestWithToken (sampleEnv (Except.ok "TOK") 500 "[]") sampleClient "GET"
          "/ticket/get" none SamplePayload.null { Ticket := "", ExpiresIn := 0 }).err
        = some ("解析响应错误: json: cannot unmarshal array into Go value of type "
            ++ "wechat.CommonResponse") :=
  ⟨rfl, by decide⟩

/-- C10, amended: the outcome of a call depends on the HTTP exchange through
the body only, two transports that give the same bodies (or the same errors)
with whatever status codes giving the same outcome; and a body that is `null`,
or an object with no member for `ErrCode` whose members for `ErrMsg` are
strings or `null`, passes the envelope check with the code zero whatever the
status code, the call then returning what the decode of the body into the
destination returns, so that it succeeds exactly when that decode does. -/
theorem outcome_depends_on_body_only {P D : Type} (env : Env P D)
    (do1 do2 : Request → Except String Response) (cli : AgentClient)
    (method path : String) (query : Option Values) (reqData : P) (respInfo : D)
    (hbody : ∀ req, (do1 req).map Response.Body = (do2 req).map Response.Body) :
    requestWithToken { env with Do := do1 } cli method path query reqData respInfo
        = requestWithToken { env with Do := do2 } cli method path query reqData respInfo
      ∧ ∀ (status : Int) (body : String) (j : JSON) (cli1 : AgentClient) (token buf : String),
          parseJSON body = some j → noErrCode j = true →
          env.GetAccessTokenFromCache cli = (cli1, Except.ok token) →
          env.Marshal reqData = Except.ok buf →
          env.NewRequestError method (requestURL path query token) = none →
          (requestWithToken
              { env with Do := fun _ => Except.ok { StatusCode := status, Body := Except.ok body } }
              cli method path query reqData respInfo).err
              = (env.storeDest j respInfo).2.map (fun e => "解析响应错误: " ++ env.jsonErrorText e)
            ∧ (requestWithToken
              { env with Do := fun _ => Except.ok { StatusCode := status, Body := Except.ok body } }
              cli method path query reqData respInfo).dest
              = (env.storeDest j respInfo).1 := by
  constructor
  · unfold requestWithToken
    simp only []
    rcases env.GetAccessTokenFromCache cli with ⟨cli1, _ | token⟩
    · rfl
    simp only []
    rcases env.Marshal reqData with _ | buf
    · rfl
    simp only []
    rcases env.NewRequestError method
      (WechatApiUrl ++ path ++ "?" ++ ((query.getD []).Set "access_token" token).Encode)
      with _ | cause
    swap
    · rfl
    simp only []
    generalize (NewRequest method
      (WechatApiUrl ++ path ++ "?" ++ ((query.getD []).Set "access_token" token).Encode)
      buf).AddHeader "Content-Type" "application/json" = req
    have h := hbody req
    rcases h1 : do1 req with e1 | r1 <;> rcases h2 : do2 req with e2 | r2 <;>
    rw [h1, h2] at h <;> simp [Except.map] at h
    · simp [h]
    · simp [h]
  · intro status body j cli1 token buf hj hno htoken hmarshal hbuild
    obtain ⟨info, hinfo, hcode⟩ := unmarshal_noErrCode body j hj hno
    simp only [builtRequest, requestURL] at hbuild
    have hdest : Unmarshal env.storeDest body respInfo = env.storeDest j respInfo := by
      simp [Unmarshal, hj]
    simp only [requestWithToken, htoken, hmarshal, hbuild, hinfo, hcode, hdest]
    rcases env.storeDest j respInfo with ⟨dest, _ | e⟩ <;> simp

/-- The bodies `{}` and `null` with the statuses 200 and 500: the same
outcome, a success. -/
theorem outcome_depends_on_body_only_witness :
    (requestWithToken
        { sampleEnv (Except.ok "TOK") 200 "null" with
          Do := fun _ => Except.ok { StatusCode := 200, Body := Except.ok "\x7b\x7d" } }
        sampleClient "GET" "/ticket/get" none SamplePayload.null { Ticket := "", ExpiresIn := 0 }
        = requestWithToken
        { sampleEnv (Except.ok "TOK") 200 "null" with
          Do := fun _ => Except.ok { StatusCode := 500, Body := Except.ok "\x7b\x7d" } }
        sampleClient "GET" "/ticket/get" none SamplePayload.null { Ticket := "", ExpiresIn := 0 }
      ∧ ∀ (status : Int) (body : String) (j : JSON) (cli1 : AgentClient) (token buf : String),
          parseJSON body = some j → noErrCode j = true →
          (sampleEnv (Except.ok "TOK") 200 "null").GetAccessTokenFromCache sampleClient
            = (cli1, Except.ok token) →
          (sampleEnv (Except.ok "TOK") 200 "null").Marshal SamplePayload.null = Except.ok buf →
          (sampleEnv (Except.ok "TOK") 200 "null").NewRequestError "GET"
            (requestURL "/ticket/get" none token) = none →
          (requestWithToken
              { sampleEnv (Except.ok "TOK") 200 "null" with
                Do := fun _ => Except.ok { StatusCode := status, Body := Except.ok body } }
              sampleClient "GET" "/ticket/get" none SamplePayload.null
              { Ticket := "", ExpiresIn := 0 }).err
              = ((sampleEnv (Except.ok "TOK") 200 "null").storeDest j
                  { Ticket := "", ExpiresIn := 0 }).2.map
                (fun e => "解析响应错误: "
                  ++ (sampleEnv (Except.ok "TOK") 200 "null").jsonErrorText e)
            ∧ (requestWithToken
              { sampleEnv (Except.ok "TOK") 200 "null" with
                Do := fun _ => Except.ok { StatusCode := status, Body := Except.ok body } }
              sampleClient "GET" "/ticket/get" none SamplePayload.null
              { Ticket := "", ExpiresIn := 0 }).dest
              = ((sampleEnv (Except.ok "TOK") 200 "null").storeDest j
                  { Ticket := "", ExpiresIn := 0 }).1)
      ∧ (requestWithToken (sampleEnv (Except.ok "TOK") 500 "\x7b\x7d") sampleClient "GET"
          "/ticket/get" none SamplePayload.null { Ticket := "", ExpiresIn := 0 }).err = none
      ∧ (requestWithToken (sampleEnv (Except.ok "TOK") 500 "null") sampleClient "GET"
          "/ticket/get" none SamplePayload.null { Ticket := "", ExpiresIn := 0 }).err = none :=
  ⟨outcome_depends_on_body_only (sampleEnv (Except.ok "TOK") 200 "null")
      (fun _ => Except.ok { StatusCode := 200, Body := Except.ok "\x7b\x7d" })
      (fun _ => Except.ok { StatusCode := 500, Body := Except.ok "\x7b\x7d" })
      sampleClient "GET" "/ticket/get" none SamplePayload.null { Ticket := "", ExpiresIn := 0 }
      (fun _ => rfl),
    by decide, by decide⟩

/-- C7, token cache window: for a token `tok` with TTL `ttl` fetched at `T` (a
fetch being due at `T`), the token step at any time in `[T, T + ttl)` returns
`tok` without a fetch and leaves the client as it is; at any time at or after
`T + ttl` it makes exactly one fetch, whose token, when the fetch succeeds, is
returned and stored with the expiry `now + ttl2`, a failed fetch changing
nothing; and the cache never hands out a cached token whose expiry has passed:
a token handed out without a fetch is the cached one and its expiry has not
passed, while a token handed out after a fetch is the one just fetched, stored
with the expiry `now + ttl2`, which lies ahead whenever its TTL is positive. -/
theorem token_cache_window (fetch1 fetch2 : AgentClient → Except String (String × Nat))
    (T : Time) (cli : AgentClient) (tok : String) (ttl : Nat)
    (hdue : (cli.AccessToken = "" ∧ cli.AccessTokenExpiresAt = 0)
      ∨ cli.AccessTokenExpiresAt ≤ T)
    (hfetch : fetch1 cli = Except.ok (tok, ttl)) :
    ((GetAccessTokenFromCache fetch1 T cli).fetches = 1
        ∧ (GetAccessTokenFromCache fetch1 T cli).result = Except.ok tok
        ∧ (GetAccessTokenFromCache fetch1 T cli).cli
          = { cli with AccessToken := tok, AccessTokenExpiresAt := T + ttl })
      ∧ (∀ now : Time, T ≤ now → now < T + ttl →
          (GetAccessTokenFromCache fetch2 now (GetAccessTokenFromCache fetch1 T cli).cli).fetches
              = 0
            ∧ (GetAccessTokenFromCache fetch2 now
                (GetAccessTokenFromCache fetch1 T cli).cli).result = Except.ok tok
            ∧ (GetAccessTokenFromCache fetch2 now (GetAccessTokenFromCache fetch1 T cli).cli).cli
              = (GetAccessTokenFromCache fetch1 T cli).cli)
      ∧ (∀ now : Time, T + ttl ≤ now →
          (GetAccessTokenFromCache fetch2 now (GetAccessTokenFromCache fetch1 T cli).cli).fetches
              = 1
            ∧ (∀ tok2 ttl2, fetch2 (GetAccessTokenFromCache fetch1 T cli).cli
                  = Except.ok (tok2, ttl2) →
                (GetAccessTokenFromCache fetch2 now
                    (GetAccessTokenFromCache fetch1 T cli).cli).result = Except.ok tok2
                  ∧ (GetAccessTokenFromCache fetch2 now
                    (GetAccessTokenFromCache fetch1 T cli).cli).cli
                    = { cli with AccessToken := tok2, AccessTokenExpiresAt := now + ttl2 })
            ∧ (∀ cause, fetch2 (GetAccessTokenFromCache fetch1 T cli).cli
                  = Except.error cause →
                (GetAccessTokenFromCache fetch2 now
                    (GetAccessTokenFromCache fetch1 T cli).cli).result = Except.error cause
                  ∧ (GetAccessTokenFromCache fetch2 now
                    (GetAccessTokenFromCache fetch1 T cli).cli).cli
                    = (GetAccessTokenFromCache fetch1 T cli).cli))
      ∧ (∀ (fetch : AgentClient → Except String (String × Nat)) (now : Time)
          (c : AgentClient) (handed : String),
          (GetAccessTokenFromCache fetch now c).result = Except.ok handed →
          ((GetAccessTokenFromCache fetch now c).fetches = 0 →
              handed = c.AccessToken ∧ now < c.AccessTokenExpiresAt)
            ∧ ((GetAccessTokenFromCache fetch now c).fetches = 1 →
              ∃ ttl2, fetch c = Except.ok (handed, ttl2)
                ∧ (GetAccessTokenFromCache fetch now c).cli.AccessTokenExpiresAt = now + ttl2
                ∧ (0 < ttl2 →
                  now < (GetAccessTokenFromCache fetch now c).cli.AccessTokenExpiresAt))) := by
  have hfirst : GetAccessTokenFromCache fetch1 T cli
      = { cli := { cli with AccessToken := tok, AccessTokenExpiresAt := T + ttl },
          result := Except.ok tok, fetches := 1 } := by
    unfold GetAccessTokenFromCache
    rw [if_pos hdue, hfetch]
  refine ⟨?_, ?_, ?_, ?_⟩
  · rw [hfirst]
    exact ⟨rfl, rfl, rfl⟩
  · intro now _ hlt
    rw [hfirst]
    have hnot : ¬ ((tok = "" ∧ T + ttl = 0) ∨ T + ttl ≤ now) := by
      intro h
      rcases h with ⟨_, h0⟩ | h
      · rw [h0] at hlt
        exact Nat.not_lt_zero _ hlt
      · exact Nat.not_le.mpr hlt h
    unfold GetAccessTokenFromCache
    rw [if_neg hnot]
    exact ⟨rfl, rfl, rfl⟩
  · intro now hle
    rw [hfirst]
    have hdue2 : (tok = "" ∧ T + ttl = 0) ∨ T + ttl ≤ now := Or.inr hle
    unfold GetAccessTokenFromCache
    rw [if_pos hdue2]
    refine ⟨?_, ?_, ?_⟩
    · split <;> rfl
    · intro tok2 ttl2 h2
      rw [h2]
      exact ⟨rfl, rfl⟩
    · intro cause h2
      rw [h2]
      exact ⟨rfl, rfl⟩
  · intro fetch now c handed hres
    unfold GetAccessTokenFromCache at hres ⊢
    by_cases hd : (c.AccessToken = "" ∧ c.AccessTokenExpiresAt = 0) ∨ c.AccessTokenExpiresAt ≤ now
    · simp only [hd, if_true] at hres ⊢
      cases hf : fetch c with
      | error cause =>
        rw [hf] at hres
        simp at hres
      | ok r =>
        obtain ⟨tok2, ttl2⟩ := r
        rw [hf] at hres
        simp only [Except.ok.injEq] at hres
        subst hres
        refine ⟨by simp, ?_⟩
        intro _
        exact ⟨ttl2, rfl, rfl, fun hpos => Nat.lt_add_of_pos_right hpos⟩
    · simp only [hd, if_false] at hres ⊢
      simp only [Except.ok.injEq] at hres
      refine ⟨?_, by simp⟩
      intro _
      refine ⟨hres.symm, ?_⟩
      exact Nat.lt_of_not_le (fun h => hd (Or.inr h))

/-- Removing the bindings of another key does not change what a key is bound to. -/
theorem lookup_filter_ne (v : Values) (k k0 : String) (h : k ≠ k0) :
    List.lookup k (v.filter (fun e => e.1 ≠ k0)) = List.lookup k v := by
  induction v with
  | nil => rfl
  | cons e rest ih =>
    obtain ⟨a, b⟩ := e
    simp only [ne_eq, decide_not] at ih
    by_cases ha : a = k0
    · subst ha
      have hk : (k == a) = false := by simpa using h
      simp [List.filter_cons, List.lookup_cons, hk, ih]
    · by_cases hka : k = a
      · subst hka
        simp [List.filter_cons, List.lookup_cons, ha]
      · have hk : (k == a) = false := by simpa using hka
        simp [List.filter_cons, List.lookup_cons, ha, hk, ih]

/-- After `Set`, the key holds the one value set. -/
theorem get_Set_self (v : Values) (k0 t : String) : (v.Set k0 t).get k0 = [t] := by
  simp [Values.Set, Values.get, List.lookup_cons]

/-- `Set` leaves the slices of the other keys as they are. -/
theorem get_Set_other (v : Values) (k k0 t : String) (h : k ≠ k0) :
    (v.Set k0 t).get k = v.get k := by
  have hk : (k == k0) = false := by simpa using h
  have h2 := lookup_filter_ne v k k0 h
  simp only [ne_eq, decide_not] at h2
  simp [Values.Set, Values.get, List.lookup_cons, hk, h2]

/-- The keys of the map are the keys of its bindings. -/
theorem mem_keys (v : Values) (k : String) : k ∈ Values.keys v ↔ ∃ x, (k, x) ∈ v := by
  induction v with
  | nil => simp [Values.keys]
  | cons e rest ih =>
    obtain ⟨a, b⟩ := e
    by_cases hka : k = a
    · subst hka
      simp [Values.keys]
    · simp [Values.keys, List.mem_filter, hka, ih]

/-- No key is listed twice. -/
theorem nodup_keys (v : Values) : (Values.keys v).Nodup := by
  induction v with
  | nil => simp [Values.keys]
  | cons e rest ih =>
    simp only [Values.keys, List.nodup_cons]
    refine ⟨?_, ih.filter _⟩
    simp [List.mem_filter]

/-- A key that is not in the map reads as the empty slice. -/
theorem get_of_not_mem_keys (v : Values) (k : String) (h : k ∉ Values.keys v) :
    v.get k = [] := by
  have hnone : List.lookup k v = none := by
    rw [List.lookup_eq_none_iff]
    intro e he
    obtain ⟨a, b⟩ := e
    simp only [bne_iff_ne, ne_eq]
    intro hka
    apply h
    rw [mem_keys]
    exact ⟨b, by rw [hka]; exact he⟩
  simp [Values.get, hnone]

/-- Insertion adds the key and keeps the others. -/
theorem insertKey_perm (k : String) (l : List String) : (insertKey k l).Perm (k :: l) := by
  induction l with
  | nil => exact List.Perm.refl _
  | cons x xs ih =>
    unfold insertKey
    split
    · exact List.Perm.refl _
    · exact (List.Perm.cons x ih).trans (List.Perm.swap k x xs)

/-- Sorting permutes the keys. -/
theorem sortKeys_perm (l : List String) : (sortKeys l).Perm l := by
  induction l with
  | nil => exact List.Perm.refl _
  | cons x xs ih => exact (insertKey_perm x (sortKeys xs)).trans (List.Perm.cons x ih)

/-- Among the pairs written for distinct keys, those of one key are the values
of that key, in their order. -/
theorem filter_flatMap_key (keys : List String) (g : String → List String) (k : String)
    (hnd : keys.Nodup) :
    (keys.flatMap (fun x => (g x).map (fun y => (x, y)))).filter (fun p => p.1 = k)
      = if k ∈ keys then (g k).map (fun y => (k, y)) else [] := by
  induction keys with
  | nil => simp
  | cons x xs ih =>
    rw [List.nodup_cons] at hnd
    rw [List.flatMap_cons, List.filter_append, ih hnd.2]
    by_cases hx : x = k
    · subst hx
      have h1 : ((g x).map (fun y => (x, y))).filter (fun p => p.1 = x)
          = (g x).map (fun y => (x, y)) := by
        rw [List.filter_eq_self]
        intro p hp
        simp only [List.mem_map] at hp
        obtain ⟨y, _, rfl⟩ := hp
        simp
      simp [h1, hnd.1]
    · have h1 : ((g x).map (fun y => (x, y))).filter (fun p => p.1 = k) = [] := by
        rw [List.filter_eq_nil_iff]
        intro p hp
        simp only [List.mem_map] at hp
        obtain ⟨y, _, rfl⟩ := hp
        simpa using hx
      have hkx : ¬ k = x := fun h => hx h.symm
      simp [h1, hkx]

/-- The pairs `Encode` writes under a key are the values the map holds under it,
in the order of the slice. -/
theorem pairs_filter_key (v : Values) (k : String) :
    v.pairs.filter (fun p => p.1 = k) = (v.get k).map (fun y => (k, y)) := by
  unfold Values.pairs
  rw [filter_flatMap_key _ _ _ ((sortKeys_perm _).nodup_iff.mpr (nodup_keys v))]
  split
  · rfl
  · next h =>
    rw [(sortKeys_perm _).mem_iff] at h
    rw [get_of_not_mem_keys v k h]
    rfl

/-- A client without a token at the instant 100 and a fetcher that gives
`FRESH` for 7200 seconds. -/
theorem token_cache_window_witness :
    ((GetAccessTokenFromCache sampleFetch 100 sampleClient).fetches = 1
        ∧ (GetAccessTokenFromCache sampleFetch 100 sampleClient).result = Except.ok "FRESH"
        ∧ (GetAccessTokenFromCache sampleFetch 100 sampleClient).cli
          = { sampleClient with AccessToken := "FRESH", AccessTokenExpiresAt := 100 + 7200 })
      ∧ (∀ now : Time, 100 ≤ now → now < 100 + 7200 →
          (GetAccessTokenFromCache sampleFetch now (GetAccessTokenFromCache sampleFetch 100 sampleClient).cli).fetches
              = 0
            ∧ (GetAccessTokenFromCache sampleFetch now
                (GetAccessTokenFromCache sampleFetch 100 sampleClient).cli).result = Except.ok "FRESH"
            ∧ (GetAccessTokenFromCache sampleFetch now (GetAccessTokenFromCache sampleFetch 100 sampleClient).cli).cli
              = (GetAccessTokenFromCache sampleFetch 100 sampleClient).cli)
      ∧ (∀ now : Time, 100 + 7200 ≤ now →
          (GetAccessTokenFromCache sampleFetch now (GetAccessTokenFromCache sampleFetch 100 sampleClient).cli).fetches
              = 1
            ∧ (∀ tok2 ttl2, sampleFetch (GetAccessTokenFromCache sampleFetch 100 sampleClient).cli
                  = Except.ok (tok2, ttl2) →
                (GetAccessTokenFromCache sampleFetch now
                    (GetAccessTokenFromCache sampleFetch 100 sampleClient).cli).result = Except.ok tok2
                  ∧ (GetAccessTokenFromCache sampleFetch now
                    (GetAccessTokenFromCache sampleFetch 100 sampleClient).cli).cli
                    = { sampleClient with AccessToken := tok2, AccessTokenExpiresAt := now + ttl2 })
            ∧ (∀ cause, sampleFetch (GetAccessTokenFromCache sampleFetch 100 sampleClient).cli
                  = Except.error cause →
                (GetAccessTokenFromCache sampleFetch now
                    (GetAccessTokenFromCache sampleFetch 100 sampleClient).cli).result = Except.error cause
                  ∧ (GetAccessTokenFromCache sampleFetch now
                    (GetAccessTokenFromCache sampleFetch 100 sampleClient).cli).cli
                    = (GetAccessTokenFromCache sampleFetch 100 sampleClient).cli))
      ∧ (∀ (fetch : AgentClient → Except String (String × Nat)) (now : Time)
          (c : AgentClient) (handed : String),
          (GetAccessTokenFromCache fetch now c).result = Except.ok handed →
          ((GetAccessTokenFromCache fetch now c).fetches = 0 →
              handed = c.AccessToken ∧ now < c.AccessTokenExpiresAt)
            ∧ ((GetAccessTokenFromCache fetch now c).fetches = 1 →
              ∃ ttl2, fetch c = Except.ok (handed, ttl2)
                ∧ (GetAccessTokenFromCache fetch now c).cli.AccessTokenExpiresAt = now + ttl2
                ∧ (0 < ttl2 →
                  now < (GetAccessTokenFromCache fetch now c).cli.AccessTokenExpiresAt))) :=
  token_cache_window sampleFetch sampleFetch 100 sampleClient "FRESH" 7200
    (Or.inl ⟨rfl, rfl⟩) rfl

/-- The encodings of two runes, each followed by more bytes, agree only for the
same rune followed by the same bytes. -/
theorem utf8Rune_append_inj (a b : Nat) (r1 r2 : List Nat)
    (h : utf8Rune a ++ r1 = utf8Rune b ++ r2) : a = b ∧ r1 = r2 := by
  unfold utf8Rune at h
  split_ifs at h <;>
    simp only [List.cons_append, List.nil_append, List.cons.injEq] at h <;>
    first
      | (exfalso; omega)
      | exact ⟨by omega, by tauto⟩

/-- A rune is determined by its code. -/
theorem toNat_injective (a b : Char) (h : a.toNat = b.toNat) : a = b := by
  rw [← Char.ofNat_toNat a, ← Char.ofNat_toNat b, h]

/-- Two lists of runes with the same bytes are equal. -/
theorem utf8_flatMap_injective (s t : List Char)
    (h : s.flatMap (fun c => utf8Rune c.toNat) = t.flatMap (fun c => utf8Rune c.toNat)) :
    s = t := by
  induction s generalizing t with
  | nil =>
    cases t with
    | nil => rfl
    | cons d ds =>
      exfalso
      simp only [List.flatMap_nil, List.flatMap_cons] at h
      unfold utf8Rune at h
      split_ifs at h <;> simp at h
  | cons c cs ih =>
    cases t with
    | nil =>
      exfalso
      simp only [List.flatMap_nil, List.flatMap_cons] at h
      unfold utf8Rune at h
      split_ifs at h <;> simp at h
    | cons d ds =>
      simp only [List.flatMap_cons] at h
      obtain ⟨h1, h2⟩ := utf8Rune_append_inj _ _ _ _ h
      rw [toNat_injective c d h1, ih ds h2]

/-- Two strings with the same bytes are equal. -/
theorem utf8Bytes_injective (s t : String) (h : utf8Bytes s = utf8Bytes t) : s = t := by
  unfold utf8Bytes at h
  have := utf8_flatMap_injective _ _ h
  exact String.ext this

/-- The encoding of a rune consists of bytes. -/
theorem utf8Rune_lt (c : Char) : ∀ b ∈ utf8Rune c.toNat, b < 256 := by
  have hc : c.toNat < 0x110000 := by
    have := c.valid
    unfold Char.toNat
    rcases this with h | ⟨_, h⟩
    · exact Nat.lt_trans h (by decide)
    · exact h
  intro b hb
  unfold utf8Rune at hb
  split_ifs at hb <;> simp at hb <;> omega

/-- The bytes of a string are below 256. -/
theorem utf8Bytes_lt (s : String) : ∀ b ∈ utf8Bytes s, b < 256 := by
  intro b hb
  unfold utf8Bytes at hb
  rw [List.mem_flatMap] at hb
  obtain ⟨c, _, hc⟩ := hb
  exact utf8Rune_lt c b hc

/-- A byte that is kept is an ASCII character. -/
theorem shouldEscape_false_lt (c : Nat) (h : shouldEscape c = false) : c < 128 := by
  unfold shouldEscape at h
  split_ifs at h <;> omega

/-- A byte that is kept is none of the marks of a query string. -/
theorem unreserved_rune : ∀ c < 128, shouldEscape c = false →
    Char.ofNat c ≠ '%' ∧ Char.ofNat c ≠ '+' ∧ Char.ofNat c ≠ '&' ∧ Char.ofNat c ≠ '='
      ∧ Char.ofNat c ≠ ';' ∧ (Char.ofNat c).toNat = c := by
  decide

/-- A digit of `upperhex` reads back as its value and is no mark of a query
string. -/
theorem upperhex_digit : ∀ n < 16, hexVal (upperhex n) = some n ∧ upperhex n ≠ '&'
    ∧ upperhex n ≠ '=' ∧ upperhex n ≠ ';' := by
  decide

/-- Unescaping `%XY`. -/
theorem unescape_percent (a b : Char) (rest : List Char) (x y : Nat)
    (ha : hexVal a = some x) (hb : hexVal b = some y) :
    QueryUnescape ('%' :: a :: b :: rest)
      = (QueryUnescape rest).map (fun bytes => (x * 16 + y) :: bytes) := by
  conv_lhs => unfold QueryUnescape
  simp only [if_true, ha, hb]
  cases QueryUnescape rest <;> rfl

/-- Unescaping `+`. -/
theorem unescape_plus (rest : List Char) :
    QueryUnescape ('+' :: rest) = (QueryUnescape rest).map (fun bytes => 32 :: bytes) := by
  conv_lhs => unfold QueryUnescape
  rw [if_neg (by decide)]
  cases QueryUnescape rest <;> rfl

/-- Unescaping a rune that is neither `%` nor `+`. -/
theorem unescape_rune (c : Char) (rest : List Char) (h1 : c ≠ '%') (h2 : c ≠ '+') :
    QueryUnescape (c :: rest)
      = (QueryUnescape rest).map (fun bytes => utf8Rune c.toNat ++ bytes) := by
  conv_lhs => unfold QueryUnescape
  rw [if_neg h1]
  cases QueryUnescape rest
  · rfl
  · simp only [if_neg h2]
    rfl

/-- Unescaping what one byte is escaped to gives the byte back. -/
theorem unescape_escapeByte (c : Nat) (hc : c < 256) (rest : List Char) :
    QueryUnescape (escapeByte c ++ rest) = (QueryUnescape rest).map (fun bytes => c :: bytes) := by
  unfold escapeByte
  by_cases hs : shouldEscape c = true
  · rw [if_pos hs]
    by_cases h32 : c = 32
    · subst h32
      simp only [if_true, List.cons_append, List.nil_append]
      exact unescape_plus rest
    · rw [if_neg h32]
      have h1 := (upperhex_digit (c / 16) (by omega)).1
      have h2 := (upperhex_digit (c % 16) (by omega)).1
      simp only [List.cons_append, List.nil_append]
      rw [unescape_percent _ _ rest _ _ h1 h2]
      have hval : c / 16 * 16 + c % 16 = c := by omega
      rw [hval]
  · have hs2 : shouldEscape c = false := by simpa using hs
    rw [if_neg hs]
    obtain ⟨hp, hplus, _, _, _, hn⟩ := unreserved_rune c (shouldEscape_false_lt c hs2) hs2
    simp only [List.cons_append, List.nil_append]
    rw [unescape_rune _ rest hp hplus, hn]
    have hr : utf8Rune c = [c] := by
      unfold utf8Rune
      rw [if_pos (shouldEscape_false_lt c hs2)]
    rw [hr]
    rfl

/-- Unescaping what bytes are escaped to gives the bytes back. -/
theorem unescape_escape (bytes : List Nat) (hb : ∀ b ∈ bytes, b < 256) (rest : List Char) :
    QueryUnescape (bytes.flatMap escapeByte ++ rest)
      = (QueryUnescape rest).map (fun tail => bytes ++ tail) := by
  induction bytes with
  | nil =>
    simp only [List.flatMap_nil, List.nil_append]
    cases QueryUnescape rest <;> rfl
  | cons b bs ih =>
    rw [List.flatMap_cons, List.append_assoc,
      unescape_escapeByte b (hb b (List.mem_cons_self _ _)),
      ih (fun x hx => hb x (List.mem_cons_of_mem _ hx))]
    cases QueryUnescape rest <;> simp

/-- `QueryUnescape` undoes `QueryEscape`. -/
theorem unescape_QueryEscape (s : String) :
    QueryUnescape (QueryEscape s).toList = some (utf8Bytes s) := by
  have h := unescape_escape (utf8Bytes s) (utf8Bytes_lt s) []
  simp only [List.append_nil] at h
  have h0 : QueryUnescape [] = some [] := by unfold QueryUnescape; rfl
  rw [h0] at h
  simpa [QueryEscape] using h

/-- What a byte is escaped to holds no `&`, `=` or `;`. -/
theorem escapeByte_plain (c : Nat) (hc : c < 256) :
    ∀ ch ∈ escapeByte c, ch ≠ '&' ∧ ch ≠ '=' ∧ ch ≠ ';' := by
  intro ch hch
  unfold escapeByte at hch
  by_cases hs : shouldEscape c = true
  · rw [if_pos hs] at hch
    by_cases h32 : c = 32
    · rw [if_pos h32] at hch
      simp only [List.mem_singleton] at hch
      subst hch
      decide
    · rw [if_neg h32] at hch
      have h1 := (upperhex_digit (c / 16) (by omega)).2
      have h2 := (upperhex_digit (c % 16) (by omega)).2
      simp only [List.mem_cons, List.mem_singleton, List.not_mem_nil, or_false] at hch
      rcases hch with h | h | h
      · subst h
        decide
      · rw [h]
        exact h1
      · rw [h]
        exact h2
  · have hs2 : shouldEscape c = false := by simpa using hs
    rw [if_neg hs] at hch
    obtain ⟨_, _, ha, he, hsemi, _⟩ := unreserved_rune c (shouldEscape_false_lt c hs2) hs2
    simp only [List.mem_singleton] at hch
    rw [hch]
    exact ⟨ha, he, hsemi⟩

/-- An escaped string holds no `&`, `=` or `;`. -/
theorem QueryEscape_plain (s : String) :
    ∀ ch ∈ (QueryEscape s).toList, ch ≠ '&' ∧ ch ≠ '=' ∧ ch ≠ ';' := by
  intro ch hch
  simp only [QueryEscape, String.toList] at hch
  rw [List.mem_flatMap] at hch
  obtain ⟨b, hb, hmem⟩ := hch
  exact escapeByte_plain b (utf8Bytes_lt s b hb) ch hmem

/-- Splitting gives at least one piece. -/
theorem splitOn_ne_nil (sep : Char) (l : List Char) : splitOn sep l ≠ [] := by
  cases l with
  | nil => simp [splitOn]
  | cons c cs =>
    unfold splitOn
    split
    · simp
    · split <;> simp

/-- A text without the separator is one piece. -/
theorem splitOn_plain (sep : Char) (p : List Char) (hp : sep ∉ p) : splitOn sep p = [p] := by
  induction p with
  | nil => rfl
  | cons c cs ih =>
    have hc : c ≠ sep := fun h => hp (by rw [h]; exact List.mem_cons_self _ _)
    have hcs : sep ∉ cs := fun h => hp (List.mem_cons_of_mem _ h)
    conv_lhs => unfold splitOn
    rw [if_neg hc, ih hcs]

/-- The first piece of a text is what stands before the first separator. -/
theorem splitOn_append (sep : Char) (p rest : List Char) (hp : sep ∉ p) :
    splitOn sep (p ++ sep :: rest) = p :: splitOn sep rest := by
  induction p with
  | nil =>
    simp only [List.nil_append]
    conv_lhs => unfold splitOn
    rw [if_pos rfl]
  | cons c cs ih =>
    have hc : c ≠ sep := fun h => hp (by rw [h]; exact List.mem_cons_self _ _)
    have hcs : sep ∉ cs := fun h => hp (List.mem_cons_of_mem _ h)
    simp only [List.cons_append]
    conv_lhs => unfold splitOn
    rw [if_neg hc, ih hcs]

/-- Splitting at `&` undoes joining with `&` items that hold none. -/
theorem splitOn_joinAmp (items : List (List Char)) (hne : items ≠ [])
    (hplain : ∀ item ∈ items, '&' ∉ item) : splitOn '&' (joinAmp items) = items := by
  induction items with
  | nil => exact absurd rfl hne
  | cons a rest ih =>
    cases rest with
    | nil =>
      simp only [joinAmp]
      exact splitOn_plain '&' a (hplain a (List.mem_cons_self _ _))
    | cons b more =>
      simp only [joinAmp]
      rw [splitOn_append '&' a _ (hplain a (List.mem_cons_self _ _)),
        ih (by simp) (fun item h => hplain item (List.mem_cons_of_mem _ h))]

/-- Cutting at the first separator. -/
theorem cut_append (sep : Char) (k v : List Char) (hk : sep ∉ k) :
    cut sep (k ++ sep :: v) = (k, v) := by
  induction k with
  | nil =>
    simp only [List.nil_append]
    unfold cut
    rw [if_pos rfl]
  | cons c cs ih =>
    have hc : c ≠ sep := fun h => hk (by rw [h]; exact List.mem_cons_self _ _)
    have hcs : sep ∉ cs := fun h => hk (List.mem_cons_of_mem _ h)
    simp only [List.cons_append]
    conv_lhs => unfold cut
    rw [if_neg hc, ih hcs]

/-- A text without the separator is cut into itself and nothing. -/
theorem cut_plain (sep : Char) (k : List Char) (hk : sep ∉ k) : cut sep k = (k, []) := by
  induction k with
  | nil => rfl
  | cons c cs ih =>
    have hc : c ≠ sep := fun h => hk (by rw [h]; exact List.mem_cons_self _ _)
    have hcs : sep ∉ cs := fun h => hk (List.mem_cons_of_mem _ h)
    conv_lhs => unfold cut
    rw [if_neg hc, ih hcs]

/-- The runes written by the loop of `String.intercalate`. -/
theorem intercalate_go_data (acc sep : String) (items : List String) :
    (String.intercalate.go acc sep items).data
      = acc.data ++ items.flatMap (fun a => sep.data ++ a.data) := by
  induction items generalizing acc with
  | nil => simp [String.intercalate.go]
  | cons a rest ih =>
    simp only [String.intercalate.go, ih, String.data_append, List.flatMap_cons,
      List.append_assoc]

/-- `String.intercalate` with `&` joins the runes of the items. -/
theorem intercalate_data (items : List String) :
    ("&".intercalate items).data = joinAmp (items.map String.data) := by
  cases items with
  | nil => rfl
  | cons a rest =>
    simp only [String.intercalate, intercalate_go_data, List.map_cons]
    induction rest generalizing a with
    | nil => simp [joinAmp]
    | cons b more ih =>
      simp only [List.flatMap_cons, List.map_cons, joinAmp]
      have h := ih b
      simp only [List.map_cons] at h
      rw [← h]
      simp [List.append_assoc]

/-- The text of a pair is parsed back to the bytes of its key and value. -/
theorem parsePiece_encodedPair (p : String × String) :
    parsePiece (encodedPair p).data = some (utf8Bytes p.1, utf8Bytes p.2) := by
  have hdata : (encodedPair p).data
      = (QueryEscape p.1).toList ++ '=' :: (QueryEscape p.2).toList := by
    simp [encodedPair, String.data_append, String.toList]
  have h1 := QueryEscape_plain p.1
  have h2 := QueryEscape_plain p.2
  have hsemi : ((encodedPair p).data.contains ';') = false := by
    rw [hdata]
    simp only [List.contains_eq_any_beq, List.any_eq_false, List.mem_append, List.mem_cons,
      beq_iff_eq]
    intro ch hch
    rcases hch with h | h | h
    · exact fun e => (h1 ch h).2.2 e.symm
    · rw [h]
      decide
    · exact fun e => (h2 ch h).2.2 e.symm
  have hne : (encodedPair p).data ≠ [] := by
    rw [hdata]
    simp
  have hcut : cut '=' (encodedPair p).data
      = ((QueryEscape p.1).toList, (QueryEscape p.2).toList) := by
    rw [hdata]
    exact cut_append '=' _ _ (fun h => (h1 '=' h).2.1 rfl)
  unfold parsePiece
  rw [hsemi]
  simp only [Bool.false_eq_true, if_false, if_neg hne, hcut, unescape_QueryEscape]

/-- The text of a pair holds no `&`. -/
theorem encodedPair_plain (p : String × String) : '&' ∉ (encodedPair p).data := by
  have hdata : (encodedPair p).data
      = (QueryEscape p.1).toList ++ '=' :: (QueryEscape p.2).toList := by
    simp [encodedPair, String.data_append, String.toList]
  rw [hdata]
  intro h
  simp only [List.mem_append, List.mem_cons] at h
  rcases h with h | h | h
  · exact (QueryEscape_plain p.1 '&' h).1 rfl
  · exact absurd h (by decide)
  · exact (QueryEscape_plain p.2 '&' h).1 rfl

/-- `url.ParseQuery` reads back the pairs whose texts are joined by `&`. -/
theorem ParseQuery_intercalate (ps : List (String × String)) :
    ParseQuery ("&".intercalate (ps.map encodedPair))
      = ps.map (fun p => (utf8Bytes p.1, utf8Bytes p.2)) := by
  unfold ParseQuery
  rw [String.toList, intercalate_data]
  cases ps with
  | nil => rfl
  | cons p rest =>
    rw [splitOn_joinAmp _ (by simp)]
    · simp only [List.map_map, List.filterMap_map]
      induction (p :: rest) with
      | nil => rfl
      | cons q more ih =>
        simp only [List.filterMap_cons, Function.comp, parsePiece_encodedPair, List.map_cons, ih]
    · intro item hitem
      simp only [List.map_map, List.mem_map, Function.comp] at hitem
      obtain ⟨q, _, rfl⟩ := hitem
      exact encodedPair_plain q

/-- `url.ParseQuery` reads back from the encoding of a map the pairs `Encode`
writes for it. -/
theorem ParseQuery_Encode (v : Values) :
    ParseQuery v.Encode = v.pairs.map (fun p => (utf8Bytes p.1, utf8Bytes p.2)) :=
  ParseQuery_intercalate v.pairs

/-- The values `url.ParseQuery` finds under a key in the encoding of a map are
the values the map holds under that key. -/
theorem parsedValues_Encode (v : Values) (key : String) :
    parsedValues (ParseQuery v.Encode) key = (v.get key).map utf8Bytes := by
  unfold parsedValues
  rw [ParseQuery_Encode, List.filter_map]
  have hfilter : v.pairs.filter
        ((fun p : List Nat × List Nat => decide (p.1 = utf8Bytes key))
          ∘ fun p : String × String => (utf8Bytes p.1, utf8Bytes p.2))
      = v.pairs.filter (fun p => p.1 = key) := by
    apply List.filter_congr
    intro p _
    simp only [Function.comp, decide_eq_decide]
    constructor
    · exact fun h => utf8Bytes_injective _ _ h
    · exact fun h => by rw [h]
  rw [hfilter, pairs_filter_key]
  simp only [List.map_map]
  rfl


/-- What a byte is escaped to holds no `#` and no `?`. -/
theorem escapeByte_no_mark (c : Nat) (hc : c < 256) :
    ∀ ch ∈ escapeByte c, ch ≠ '#' ∧ ch ≠ '?' := by
  have hkept : ∀ c < 128, shouldEscape c = false →
      Char.ofNat c ≠ '#' ∧ Char.ofNat c ≠ '?' := by decide
  have hdigit : ∀ n < 16, upperhex n ≠ '#' ∧ upperhex n ≠ '?' := by decide
  intro ch hch
  unfold escapeByte at hch
  by_cases hs : shouldEscape c = true
  · rw [if_pos hs] at hch
    by_cases h32 : c = 32
    · rw [if_pos h32] at hch
      simp only [List.mem_singleton] at hch
      subst hch
      decide
    · rw [if_neg h32] at hch
      simp only [List.mem_cons, List.mem_singleton, List.not_mem_nil, or_false] at hch
      rcases hch with h | h | h
      · subst h
        decide
      · rw [h]
        exact hdigit (c / 16) (by omega)
      · rw [h]
        exact hdigit (c % 16) (by omega)
  · have hs2 : shouldEscape c = false := by simpa using hs
    rw [if_neg hs] at hch
    simp only [List.mem_singleton] at hch
    rw [hch]
    exact hkept c (shouldEscape_false_lt c hs2) hs2

/-- An escaped string holds no `#` and no `?`. -/
theorem QueryEscape_no_mark (s : String) :
    ∀ ch ∈ (QueryEscape s).toList, ch ≠ '#' ∧ ch ≠ '?' := by
  intro ch hch
  simp only [QueryEscape, String.toList] at hch
  rw [List.mem_flatMap] at hch
  obtain ⟨b, hb, hmem⟩ := hch
  exact escapeByte_no_mark b (utf8Bytes_lt s b hb) ch hmem

/-- A rune of joined items is `&` or a rune of an item. -/
theorem mem_joinAmp (items : List (List Char)) (ch : Char) (h : ch ∈ joinAmp items) :
    ch = '&' ∨ ∃ item ∈ items, ch ∈ item := by
  induction items with
  | nil => simp [joinAmp] at h
  | cons a rest ih =>
    cases rest with
    | nil =>
      simp only [joinAmp] at h
      exact Or.inr ⟨a, List.mem_cons_self _ _, h⟩
    | cons b more =>
      simp only [joinAmp, List.mem_append, List.mem_cons] at h
      rcases h with h | h | h
      · exact Or.inr ⟨a, List.mem_cons_self _ _, h⟩
      · exact Or.inl h
      · rcases ih h with h1 | ⟨item, hitem, hch⟩
        · exact Or.inl h1
        · exact Or.inr ⟨item, List.mem_cons_of_mem _ hitem, hch⟩

/-- The encoding of a map holds no `#` and no `?`. -/
theorem Encode_no_mark (v : Values) : ∀ ch ∈ v.Encode.toList, ch ≠ '#' ∧ ch ≠ '?' := by
  intro ch hch
  rw [Values.Encode, String.toList, intercalate_data] at hch
  rcases mem_joinAmp _ ch hch with h | ⟨item, hitem, hmem⟩
  · rw [h]
    decide
  · simp only [List.map_map, List.mem_map, Function.comp] at hitem
    obtain ⟨p, _, rfl⟩ := hitem
    have hdata : (encodedPair p).data
        = (QueryEscape p.1).toList ++ '=' :: (QueryEscape p.2).toList := by
      simp [encodedPair, String.data_append, String.toList]
    rw [hdata] at hmem
    simp only [List.mem_append, List.mem_cons] at hmem
    rcases hmem with h | h | h
    · exact QueryEscape_no_mark p.1 ch h
    · rw [h]
      decide
    · exact QueryEscape_no_mark p.2 ch h

/-- Cutting a text that begins with a text free of the separator. -/
theorem cut_append_left (sep : Char) (k v : List Char) (hk : sep ∉ k) :
    cut sep (k ++ v) = (k ++ (cut sep v).1, (cut sep v).2) := by
  induction k with
  | nil => rfl
  | cons c cs ih =>
    have hc : c ≠ sep := fun h => hk (by rw [h]; exact List.mem_cons_self _ _)
    have hcs : sep ∉ cs := fun h => hk (List.mem_cons_of_mem _ h)
    simp only [List.cons_append]
    conv_lhs => unfold cut
    rw [if_neg hc, ih hcs]

/-- The scheme of a text that begins with the base URL. -/
theorem getScheme_base (x : List Char) :
    getScheme (WechatApiUrl.toList ++ x)
      = ("https".toList, "//qyapi.weixin.qq.com/cgi-bin".toList ++ x) := by
  have h : WechatApiUrl.toList = 'h' :: 't' :: 't' :: 'p' :: 's' :: ':'
      :: ("//qyapi.weixin.qq.com/cgi-bin".toList) := by decide
  rw [h]
  simp only [getScheme, List.cons_append]
  have a1 : ('h' : Char).isAlpha = true := by decide
  have a2 : ('t' : Char).isAlpha = true := by decide
  have a3 : ('p' : Char).isAlpha = true := by decide
  have a4 : ('s' : Char).isAlpha = true := by decide
  have a5 : (':' : Char).isAlpha = false := by decide
  have a6 : ¬ ((':' : Char).isDigit = true ∨ ':' = '+' ∨ ':' = '-' ∨ ':' = '.') := by decide
  simp only [getSchemeLoop, a1, a2, a3, a4, a5, a6, if_true, if_false, List.nil_append,
    List.cons_append, Bool.false_eq_true, ↓reduceIte]
  simp

/-- The authority and the path of a text that begins with the base URL. -/
theorem splitAuthority_base (x : List Char) :
    splitAuthority "https".toList ("//qyapi.weixin.qq.com/cgi-bin".toList ++ x)
      = ("qyapi.weixin.qq.com".toList, "/cgi-bin".toList ++ x) := by
  have h : "//qyapi.weixin.qq.com/cgi-bin".toList
      = '/' :: '/' :: ("qyapi.weixin.qq.com".toList ++ '/' :: "cgi-bin".toList) := by decide
  have hs : ∀ c ∈ "qyapi.weixin.qq.com".toList, (fun c : Char => decide (c ≠ '/')) c = true := by
    decide
  rw [h]
  simp only [List.cons_append, splitAuthority]
  rw [if_pos (Or.inl (by decide))]
  rw [List.append_assoc, List.span_eq_take_drop, List.takeWhile_append_of_pos hs,
    List.dropWhile_append_of_pos hs]
  simp [List.takeWhile, List.dropWhile]

/-- The URL parsed from a text that begins with the base URL: the scheme and
the host are those of the base URL, whatever follows it. -/
theorem urlParse_base (x : List Char) :
    urlParse (String.mk (WechatApiUrl.toList ++ x))
      = { Scheme := "https",
          Host := "qyapi.weixin.qq.com",
          EscapedPath := escapedText Encoding.encodePath
            ("/cgi-bin".toList ++ (cut '?' (cut '#' x).1).1),
          ForceQuery := ("//qyapi.weixin.qq.com/cgi-bin".toList ++ (cut '#' x).1).contains '?'
            && (cut '?' (cut '#' x).1).2.isEmpty,
          RawQuery := String.mk (cut '?' (cut '#' x).1).2,
          EscapedFragment := escapedText Encoding.encodeFragment (cut '#' x).2 } := by
  have h1 : cut '#' (WechatApiUrl.toList ++ x)
      = (WechatApiUrl.toList ++ (cut '#' x).1, (cut '#' x).2) :=
    cut_append_left '#' _ _ (by decide)
  have h2 : cut '?' ("//qyapi.weixin.qq.com/cgi-bin".toList ++ (cut '#' x).1)
      = ("//qyapi.weixin.qq.com/cgi-bin".toList ++ (cut '?' (cut '#' x).1).1,
          (cut '?' (cut '#' x).1).2) :=
    cut_append_left '?' _ _ (by decide)
  simp only [urlParse, String.toList, h1, getScheme_base, h2, splitAuthority_base]
  rfl

/-- The encoding of a query in which `access_token` is set is not empty. -/
theorem Encode_Set_ne_nil (v : Values) (token : String) :
    (v.Set "access_token" token).Encode.toList ≠ [] := by
  intro h
  have henc : (v.Set "access_token" token).Encode = "" := by
    apply String.ext
    exact h
  have hp := parsedValues_Encode (v.Set "access_token" token) "access_token"
  have h0 : parsedValues (ParseQuery "") "access_token" = [] := by decide
  rw [henc, get_Set_self, h0] at hp
  exact absurd hp (by simp)

/-- The URL of a request whose path holds neither `?` nor `#`: the scheme and
the host are those of the base URL, the path is `/cgi-bin` followed by the
path given, the query is the encoding written after the `?` of the code, and
there is no fragment. -/
theorem urlParse_requestURL (path : String) (query : Option Values) (token : String)
    (hq : '?' ∉ path.toList) (hf : '#' ∉ path.toList) :
    urlParse (requestURL path query token)
      = { Scheme := "https",
          Host := "qyapi.weixin.qq.com",
          EscapedPath := escapedText Encoding.encodePath ("/cgi-bin".toList ++ path.toList),
          ForceQuery := false,
          RawQuery := ((query.getD []).Set "access_token" token).Encode,
          EscapedFragment := "" } := by
  have hraw : requestURL path query token
      = String.mk (WechatApiUrl.toList
        ++ (path.toList ++ '?' :: ((query.getD []).Set "access_token" token).Encode.toList)) := by
    apply String.ext
    simp [requestURL, String.toList, String.data_append]
  have hfrag : cut '#' (path.toList
        ++ '?' :: ((query.getD []).Set "access_token" token).Encode.toList)
      = (path.toList ++ '?' :: ((query.getD []).Set "access_token" token).Encode.toList,
          []) := by
    apply cut_plain
    intro h
    simp only [List.mem_append, List.mem_cons] at h
    rcases h with h | h | h
    · exact hf h
    · exact absurd h (by decide)
    · exact (Encode_no_mark _ _ h).1 rfl
  have hcut : cut '?' (path.toList
        ++ '?' :: ((query.getD []).Set "access_token" token).Encode.toList)
      = (path.toList, ((query.getD []).Set "access_token" token).Encode.toList) :=
    cut_append '?' _ _ hq
  have hne := Encode_Set_ne_nil (query.getD []) token
  rw [hraw, urlParse_base, hfrag]
  simp only [hcut]
  have hempty : ((query.getD []).Set "access_token" token).Encode.toList.isEmpty = false := by
    cases hl : ((query.getD []).Set "access_token" token).Encode.toList with
    | nil => exact absurd hl hne
    | cons c cs => rfl
  rw [hempty, Bool.and_false]
  rfl

/-- The scheme and the host of the URL of a request, whatever the path. -/
theorem urlParse_requestURL_host (path : String) (query : Option Values) (token : String) :
    (urlParse (requestURL path query token)).Scheme = "https"
      ∧ (urlParse (requestURL path query token)).Host = "qyapi.weixin.qq.com" := by
  have hraw : requestURL path query token
      = String.mk (WechatApiUrl.toList
        ++ (path.toList ++ '?' :: ((query.getD []).Set "access_token" token).Encode.toList)) := by
    apply String.ext
    simp [requestURL, String.toList, String.data_append]
  rw [hraw, urlParse_base]
  exact ⟨rfl, rfl⟩

/-- The request line of a request whose path holds neither `?` nor `#` and is
a valid encoding: `/cgi-bin`, the path, `?` and the encoded query. -/
theorem requestURI_requestURL (path : String) (query : Option Values) (token : String)
    (hq : '?' ∉ path.toList) (hf : '#' ∉ path.toList)
    (hv : validEncoded Encoding.encodePath path.toList = true) :
    (urlParse (requestURL path query token)).RequestURI
      = "/cgi-bin" ++ path ++ "?" ++ ((query.getD []).Set "access_token" token).Encode := by
  have hne := Encode_Set_ne_nil (query.getD []) token
  have hvalid : validEncoded Encoding.encodePath ("/cgi-bin".toList ++ path.toList) = true := by
    unfold validEncoded at hv ⊢
    rw [List.all_append, hv, Bool.and_true]
    decide
  have hpath : escapedText Encoding.encodePath ("/cgi-bin".toList ++ path.toList)
      = "/cgi-bin" ++ path := by
    unfold escapedText
    rw [if_pos hvalid]
    apply String.ext
    simp [String.toList, String.data_append]
  have hpne : "/cgi-bin" ++ path ≠ "" := by
    intro h
    have h2 := congrArg String.data h
    simp [String.data_append] at h2
  have hqne : ((query.getD []).Set "access_token" token).Encode ≠ "" := by
    intro h
    apply hne
    rw [h]
    rfl
  rw [urlParse_requestURL path query token hq hf]
  simp only [URL.RequestURI, hpath]
  rw [if_neg hpne, if_pos (Or.inr hqne)]
  simp [String.append_assoc]

/-- The sends in the trace of a call whose token step and serialization
succeed: the request built, when `http.NewRequest` accepts it, and none
otherwise. -/
theorem sends_of_request {P D : Type} (env : Env P D) (cli cli1 : AgentClient)
    (method path : String) (query : Option Values) (reqData : P) (respInfo : D)
    (token buf : String)
    (htoken : env.GetAccessTokenFromCache cli = (cli1, Except.ok token))
    (hmarshal : env.Marshal reqData = Except.ok buf) :
    (requestWithToken env cli method path query reqData respInfo).trace.filter Event.isSend
      = if env.NewRequestError method (requestURL path query token) = none
        then [Event.send (builtRequest method path query token buf)] else [] := by
  apply requestWithToken_cases env cli method path query reqData respInfo
    (fun out => out.trace.filter Event.isSend
      = if env.NewRequestError method (requestURL path query token) = none
        then [Event.send (builtRequest method path query token buf)] else [])
  all_goals intros
  all_goals simp_all [Event.isSend]

/-- C8 as stated fails: given the empty method, the request sent has the
method `GET`, not the given method. -/
theorem empty_method_sent_as_get :
    (requestWithToken (sampleEnv (Except.ok "TOK") 200 "null") sampleClient ""
        "/ticket/get" none SamplePayload.null
        { Ticket := "", ExpiresIn := 0 }).trace.filter Event.isSend
      = [Event.send
          { Method := "GET",
            URL :=
              { Scheme := "https",
                Host := "qyapi.weixin.qq.com",
                EscapedPath := "/cgi-bin/ticket/get",
                ForceQuery := false,
                RawQuery := "access_token=TOK",
                EscapedFragment := "" },
            Header := [("Content-Type", "application/json")],
            Body := "null" }] := by
  decide

/-- C8, amended: once the token is obtained and the payload serialized,
`http.NewRequest` is called with the given method, the text
`https://qyapi.weixin.qq.com/cgi-bin` followed by the path, `?` and the
encoding of the query with `access_token` set, and the serialized payload;
when it accepts them exactly one request is sent, and otherwise none.  The
request sent has the given method, or `GET` when the given method is empty;
its URL is what `url.Parse` makes of that text; its one header is
`Content-Type: application/json`; its body is the serialized payload.  The
encoding holds the one value `token` under `access_token` and the caller's
values under every other key.  Whatever the path, the URL sent has the scheme
`https` and the host `qyapi.weixin.qq.com`; when the path holds neither `?`
nor `#`, its path is `/cgi-bin` followed by the given path, as
`URL.EscapedPath` writes it, its query is the encoding, and it has no
fragment; when the path is moreover a valid encoding, the request line
carries `/cgi-bin`, the path, `?` and the encoding. -/
theorem request_construction {P D : Type} (env : Env P D) (cli cli1 : AgentClient)
    (method path : String) (query : Option Values) (reqData : P) (respInfo : D)
    (token buf : String)
    (htoken : env.GetAccessTokenFromCache cli = (cli1, Except.ok token))
    (hmarshal : env.Marshal reqData = Except.ok buf) :
    Event.newRequest method
        ("https://qyapi.weixin.qq.com/cgi-bin" ++ path ++ "?"
          ++ ((query.getD []).Set "access_token" token).Encode) buf
        ∈ (requestWithToken env cli method path query reqData respInfo).trace
      ∧ (requestWithToken env cli method path query reqData respInfo).trace.filter Event.isSend
        = (if env.NewRequestError method
              ("https://qyapi.weixin.qq.com/cgi-bin" ++ path ++ "?"
                ++ ((query.getD []).Set "access_token" token).Encode) = none
          then [Event.send (builtRequest method path query token buf)] else [])
      ∧ (builtRequest method path query token buf).Method
        = (if method = "" then "GET" else method)
      ∧ (builtRequest method path query token buf).URL
        = urlParse ("https://qyapi.weixin.qq.com/cgi-bin" ++ path ++ "?"
            ++ ((query.getD []).Set "access_token" token).Encode)
      ∧ (builtRequest method path query token buf).Header
        = [("Content-Type", "application/json")]
      ∧ (builtRequest method path query token buf).Body = buf
      ∧ parsedValues (ParseQuery ((query.getD []).Set "access_token" token).Encode)
          "access_token" = [utf8Bytes token]
      ∧ (∀ key, key ≠ "access_token" →
          parsedValues (ParseQuery ((query.getD []).Set "access_token" token).Encode) key
            = ((query.getD []).get key).map utf8Bytes)
      ∧ (builtRequest method path query token buf).URL.Scheme = "https"
      ∧ (builtRequest method path query token buf).URL.Host = "qyapi.weixin.qq.com"
      ∧ ('?' ∉ path.toList → '#' ∉ path.toList →
          (builtRequest method path query token buf).URL
              = { Scheme := "https",
                  Host := "qyapi.weixin.qq.com",
                  EscapedPath :=
                    escapedText Encoding.encodePath ("/cgi-bin".toList ++ path.toList),
                  ForceQuery := false,
                  RawQuery := ((query.getD []).Set "access_token" token).Encode,
                  EscapedFragment := "" }
            ∧ (validEncoded Encoding.encodePath path.toList = true →
                (builtRequest method path query token buf).URL.RequestURI
                  = "/cgi-bin" ++ path ++ "?"
                    ++ ((query.getD []).Set "access_token" token).Encode)) := by
  have hurl : WechatApiUrl = "https://qyapi.weixin.qq.com/cgi-bin" := rfl
  have hreq : requestURL path query token
      = "https://qyapi.weixin.qq.com/cgi-bin" ++ path ++ "?"
        ++ ((query.getD []).Set "access_token" token).Encode := rfl
  refine ⟨?_, ?_, rfl, rfl, rfl, rfl, ?_, ?_,
    (urlParse_requestURL_host path query token).1,
    (urlParse_requestURL_host path query token).2, ?_⟩
  · rw [← hreq]
    apply requestWithToken_cases env cli method path query reqData respInfo
      (fun out => Event.newRequest method (requestURL path query token) buf ∈ out.trace)
    all_goals intros
    all_goals simp_all
  · rw [← hreq]
    exact sends_of_request env cli cli1 method path query reqData respInfo token buf
      htoken hmarshal
  · rw [parsedValues_Encode, get_Set_self]
    rfl
  · intro key hkey
    rw [parsedValues_Encode, get_Set_other _ _ _ _ hkey]
  · intro hq hf
    exact ⟨urlParse_requestURL path query token hq hf,
      fun hv => requestURI_requestURL path query token hq hf hv⟩

/-- A request for a ticket with a caller's query `type=jsapi`: the request
sent and its request line; a path with a blank is sent escaped. -/
theorem request_construction_witness :
    (Event.newRequest "GET"
        ("https://qyapi.weixin.qq.com/cgi-bin" ++ "/ticket/get" ++ "?"
          ++ (((some [("type", ["jsapi"])] : Option Values).getD []).Set
            "access_token" "TOK").Encode) "null"
        ∈ (requestWithToken (sampleEnv (Except.ok "TOK") 200 "null") sampleClient "GET"
            "/ticket/get" (some [("type", ["jsapi"])]) SamplePayload.null
            { Ticket := "", ExpiresIn := 0 }).trace
      ∧ (requestWithToken (sampleEnv (Except.ok "TOK") 200 "null") sampleClient "GET"
            "/ticket/get" (some [("type", ["jsapi"])]) SamplePayload.null
            { Ticket := "", ExpiresIn := 0 }).trace.filter Event.isSend
        = (if (sampleEnv (Except.ok "TOK") 200 "null").NewRequestError "GET"
              ("https://qyapi.weixin.qq.com/cgi-bin" ++ "/ticket/get" ++ "?"
                ++ (((some [("type", ["jsapi"])] : Option Values).getD []).Set
                  "access_token" "TOK").Encode) = none
          then [Event.send
            (builtRequest "GET" "/ticket/get" (some [("type", ["jsapi"])]) "TOK" "null")]
          else [])
      ∧ (builtRequest "GET" "/ticket/get" (some [("type", ["jsapi"])]) "TOK" "null").Method
        = (if "GET" = "" then "GET" else "GET")
      ∧ (builtRequest "GET" "/ticket/get" (some [("type", ["jsapi"])]) "TOK" "null").URL
        = urlParse ("https://qyapi.weixin.qq.com/cgi-bin" ++ "/ticket/get" ++ "?"
            ++ (((some [("type", ["jsapi"])] : Option Values).getD []).Set
              "access_token" "TOK").Encode)
      ∧ (builtRequest "GET" "/ticket/get" (some [("type", ["jsapi"])]) "TOK" "null").Header
        = [("Content-Type", "application/json")]
      ∧ (builtRequest "GET" "/ticket/get" (some [("type", ["jsapi"])]) "TOK" "null").Body
        = "null"
      ∧ parsedValues (ParseQuery (((some [("type", ["jsapi"])] : Option Values).getD []).Set
          "access_token" "TOK").Encode) "access_token" = [utf8Bytes "TOK"]
      ∧ (∀ key, key ≠ "access_token" →
          parsedValues (ParseQuery (((some [("type", ["jsapi"])] : Option Values).getD []).Set
            "access_token" "TOK").Encode) key
            = (((some [("type", ["jsapi"])] : Option Values).getD []).get key).map utf8Bytes)
      ∧ (builtRequest "GET" "/ticket/get" (some [("type", ["jsapi"])]) "TOK" "null").URL.Scheme
        = "https"
      ∧ (builtRequest "GET" "/ticket/get" (some [("type", ["jsapi"])]) "TOK" "null").URL.Host
        = "qyapi.weixin.qq.com"
      ∧ ('?' ∉ "/ticket/get".toList → '#' ∉ "/ticket/get".toList →
          (builtRequest "GET" "/ticket/get" (some [("type", ["jsapi"])]) "TOK" "null").URL
              = { Scheme := "https",
                  Host := "qyapi.weixin.qq.com",
                  EscapedPath :=
                    escapedText Encoding.encodePath
                      ("/cgi-bin".toList ++ "/ticket/get".toList),
                  ForceQuery := false,
                  RawQuery := (((some [("type", ["jsapi"])] : Option Values).getD []).Set
                    "access_token" "TOK").Encode,
                  EscapedFragment := "" }
            ∧ (validEncoded Encoding.encodePath "/ticket/get".toList = true →
                (builtRequest "GET" "/ticket/get" (some [("type", ["jsapi"])]) "TOK"
                  "null").URL.RequestURI
                  = "/cgi-bin" ++ "/ticket/get" ++ "?"
                    ++ (((some [("type", ["jsapi"])] : Option Values).getD []).Set
                      "access_token" "TOK").Encode)))
      ∧ (requestWithToken (sampleEnv (Except.ok "TOK") 200 "null") sampleClient "GET"
            "/ticket/get" (some [("type", ["jsapi"])]) SamplePayload.null
            { Ticket := "", ExpiresIn := 0 }).trace.filter Event.isSend
        = [Event.send
            { Method := "GET",
              URL :=
                { Scheme := "https",
                  Host := "qyapi.weixin.qq.com",
                  EscapedPath := "/cgi-bin/ticket/get",
                  ForceQuery := false,
                  RawQuery := "access_token=TOK&type=jsapi",
                  EscapedFragment := "" },
              Header := [("Content-Type", "application/json")],
              Body := "null" }]
      ∧ (builtRequest "GET" "/ticket/get" (some [("type", ["jsapi"])]) "TOK"
          "null").URL.RequestURI = "/cgi-bin/ticket/get?access_token=TOK&type=jsapi"
      ∧ (builtRequest "GET" "/a b" none "TOK" "null").URL.RequestURI
        = "/cgi-bin/a%20b?access_token=TOK" :=
  ⟨request_construction (sampleEnv (Except.ok "TOK") 200 "null") sampleClient sampleClient
      "GET" "/ticket/get" (some [("type", ["jsapi"])]) SamplePayload.null
      { Ticket := "", ExpiresIn := 0 } "TOK" "null" rfl rfl,
    by decide, by decide, by decide⟩

/-- C3 as stated fails: the text of the URL is the base URL, the path, `?` and
the encoded query, so that a path holding `#` or `?` changes the query of the
URL sent.  With the path `/x#frag` the encoded query falls into the fragment
and the query sent is empty, without any `access_token`; with the path
`/x?access_token=EVIL&` the one value sent for `access_token` is `EVIL`, not
the token. -/
theorem path_can_displace_token :
    ((requestWithToken (sampleEnv (Except.ok "TOK") 200 "null") sampleClient "GET"
        "/x#frag" none SamplePayload.null
        { Ticket := "", ExpiresIn := 0 }).trace.filter Event.isSend
      = [Event.send
          { Method := "GET",
            URL :=
              { Scheme := "https",
                Host := "qyapi.weixin.qq.com",
                EscapedPath := "/cgi-bin/x",
                ForceQuery := false,
                RawQuery := "",
                EscapedFragment := "frag?access_token=TOK" },
            Header := [("Content-Type", "application/json")],
            Body := "null" }]
      ∧ parsedValues (ParseQuery "") "access_token" = [])
    ∧ ((requestWithToken (sampleEnv (Except.ok "TOK") 200 "null") sampleClient "GET"
        "/x?access_token=EVIL&" none SamplePayload.null
        { Ticket := "", ExpiresIn := 0 }).trace.filter Event.isSend
      = [Event.send
          { Method := "GET",
            URL :=
              { Scheme := "https",
                Host := "qyapi.weixin.qq.com",
                EscapedPath := "/cgi-bin/x",
                ForceQuery := false,
                RawQuery := "access_token=EVIL&?access_token=TOK",
                EscapedFragment := "" },
            Header := [("Content-Type", "application/json")],
            Body := "null" }]
      ∧ parsedValues (ParseQuery "access_token=EVIL&?access_token=TOK") "access_token"
        = [utf8Bytes "EVIL"]
      ∧ utf8Bytes "EVIL" ≠ utf8Bytes "TOK") := by
  decide

/-- C3, amended: for every path that holds neither `?` nor `#`, whatever query
the caller supplies (nil, empty, or with values under `access_token`) and
whatever token `token` the token step returns, the request sent, once the
payload is serialized and `http.NewRequest` accepts the request, has as its
query the encoding of the caller's map after `Set("access_token", token)`;
read by `url.ParseQuery`, the query sent has exactly one value for
`access_token`, the token, and under every other key exactly the values the
caller supplied, in their order. -/
theorem authentication_parameter_ownership {P D : Type} (env : Env P D)
    (cli cli1 : AgentClient) (method path : String) (query : Option Values) (reqData : P)
    (respInfo : D) (token buf : String)
    (hquery : '?' ∉ path.toList) (hfragment : '#' ∉ path.toList)
    (htoken : env.GetAccessTokenFromCache cli = (cli1, Except.ok token))
    (hmarshal : env.Marshal reqData = Except.ok buf)
    (hbuild : env.NewRequestError method (requestURL path query token) = none) :
    (requestWithToken env cli method path query reqData respInfo).trace.filter Event.isSend
        = [Event.send (builtRequest method path query token buf)]
      ∧ (builtRequest method path query token buf).URL.RawQuery
        = ((query.getD []).Set "access_token" token).Encode
      ∧ parsedValues (ParseQuery (builtRequest method path query token buf).URL.RawQuery)
          "access_token" = [utf8Bytes token]
      ∧ ∀ key, key ≠ "access_token" →
          parsedValues (ParseQuery (builtRequest method path query token buf).URL.RawQuery) key
            = ((query.getD []).get key).map utf8Bytes := by
  have hraw : (builtRequest method path query token buf).URL.RawQuery
      = ((query.getD []).Set "access_token" token).Encode :=
    congrArg URL.RawQuery (urlParse_requestURL path query token hquery hfragment)
  refine ⟨?_, hraw, ?_, ?_⟩
  · rw [sends_of_request env cli cli1 method path query reqData respInfo token buf
      htoken hmarshal, if_pos hbuild]
  · rw [hraw, parsedValues_Encode, get_Set_self]
    rfl
  · intro key hkey
    rw [hraw, parsedValues_Encode, get_Set_other _ _ _ _ hkey]

/-- A caller's query that already holds two values under `access_token`: the
query sent is `access_token=TOK&type=jsapi`. -/
theorem authentication_parameter_ownership_witness :
    ((requestWithToken (sampleEnv (Except.ok "TOK") 200 "null") sampleClient "GET"
          "/ticket/get" (some [("access_token", ["old", "older"]), ("type", ["jsapi"])])
          SamplePayload.null { Ticket := "", ExpiresIn := 0 }).trace.filter Event.isSend
        = [Event.send (builtRequest "GET" "/ticket/get"
            (some [("access_token", ["old", "older"]), ("type", ["jsapi"])]) "TOK" "null")]
      ∧ (builtRequest "GET" "/ticket/get"
            (some [("access_token", ["old", "older"]), ("type", ["jsapi"])]) "TOK"
            "null").URL.RawQuery
        = (((some [("access_token", ["old", "older"]), ("type", ["jsapi"])] :
            Option Values).getD []).Set "access_token" "TOK").Encode
      ∧ parsedValues (ParseQuery (builtRequest "GET" "/ticket/get"
            (some [("access_token", ["old", "older"]), ("type", ["jsapi"])]) "TOK"
            "null").URL.RawQuery) "access_token" = [utf8Bytes "TOK"]
      ∧ ∀ key, key ≠ "access_token" →
          parsedValues (ParseQuery (builtRequest "GET" "/ticket/get"
            (some [("access_token", ["old", "older"]), ("type", ["jsapi"])]) "TOK"
            "null").URL.RawQuery) key
            = (((some [("access_token", ["old", "older"]), ("type", ["jsapi"])] :
                Option Values).getD []).get key).map utf8Bytes)
      ∧ (builtRequest "GET" "/ticket/get"
            (some [("access_token", ["old", "older"]), ("type", ["jsapi"])]) "TOK"
            "null").URL.RawQuery = "access_token=TOK&type=jsapi" :=
  ⟨authentication_parameter_ownership (sampleEnv (Except.ok "TOK") 200 "null") sampleClient
      sampleClient "GET" "/ticket/get"
      (some [("access_token", ["old", "older"]), ("type", ["jsapi"])]) SamplePayload.null
      { Ticket := "", ExpiresIn := 0 } "TOK" "null" (by decide) (by decide) rfl rfl rfl,
    by decide⟩

/-- C9, payload round trip: once the token step has succeeded, a payload that
serializes to `buf` is delivered verbatim: when `http.NewRequest` accepts the
request, exactly one request is sent and its body is `buf`, and when it
refuses, none is sent; a payload that `json.Marshal` refuses with `cause` gives
the error `编码参数错误: cause`, the token step and the serialization being the
only calls made, so that no request is built or sent. -/
theorem payload_delivery {P D : Type} (env : Env P D) (cli cli1 : AgentClient)
    (method path : String) (query : Option Values) (reqData : P) (respInfo : D)
    (token : String)
    (htoken : env.GetAccessTokenFromCache cli = (cli1, Except.ok token)) :
    (∀ buf, env.Marshal reqData = Except.ok buf →
        (requestWithToken env cli method path query reqData respInfo).trace.filter
            Event.isSend
            = (if env.NewRequestError method (requestURL path query token) = none
              then [Event.send (builtRequest method path query token buf)] else [])
          ∧ (builtRequest method path query token buf).Body = buf)
      ∧ (∀ cause, env.Marshal reqData = Except.error cause →
          (requestWithToken env cli method path query reqData respInfo).err
              = some ("编码参数错误: " ++ cause)
            ∧ (requestWithToken env cli method path query reqData respInfo).trace
              = [Event.getToken, Event.marshal reqData]
            ∧ (requestWithToken env cli method path query reqData respInfo).trace.filter
              Event.isSend = []) := by
  constructor
  · intro buf hmarshal
    exact ⟨sends_of_request env cli cli1 method path query reqData respInfo token buf
      htoken hmarshal, rfl⟩
  · intro cause hmarshal
    simp [requestWithToken, htoken, hmarshal, Event.isSend]

/-- The payload `{"foo":"bar"}` of the spec: the one request sent carries it
verbatim, and the body sent decodes to the object with the member `foo`;
a channel is refused with a request-encoding error. -/
theorem payload_delivery_witness :
    ((∀ buf, (sampleEnv (Except.ok "TOK") 200 "null").Marshal SamplePayload.fooBar
          = Except.ok buf →
        (requestWithToken (sampleEnv (Except.ok "TOK") 200 "null") sampleClient "POST"
            "/message/send" none SamplePayload.fooBar
            { Ticket := "", ExpiresIn := 0 }).trace.filter Event.isSend
            = (if (sampleEnv (Except.ok "TOK") 200 "null").NewRequestError "POST"
                (requestURL "/message/send" none "TOK") = none
              then [Event.send (builtRequest "POST" "/message/send" none "TOK" buf)] else [])
          ∧ (builtRequest "POST" "/message/send" none "TOK" buf).Body = buf)
      ∧ (∀ cause, (sampleEnv (Except.ok "TOK") 200 "null").Marshal SamplePayload.fooBar
          = Except.error cause →
          (requestWithToken (sampleEnv (Except.ok "TOK") 200 "null") sampleClient "POST"
              "/message/send" none SamplePayload.fooBar
              { Ticket := "", ExpiresIn := 0 }).err = some ("编码参数错误: " ++ cause)
            ∧ (requestWithToken (sampleEnv (Except.ok "TOK") 200 "null") sampleClient "POST"
              "/message/send" none SamplePayload.fooBar
              { Ticket := "", ExpiresIn := 0 }).trace
              = [Event.getToken, Event.marshal SamplePayload.fooBar]
            ∧ (requestWithToken (sampleEnv (Except.ok "TOK") 200 "null") sampleClient "POST"
              "/message/send" none SamplePayload.fooBar
              { Ticket := "", ExpiresIn := 0 }).trace.filter Event.isSend = []))
      ∧ (requestWithToken (sampleEnv (Except.ok "TOK") 200 "null") sampleClient "POST"
            "/message/send" none SamplePayload.fooBar
            { Ticket := "", ExpiresIn := 0 }).trace.filter Event.isSend
        = [Event.send
            { Method := "POST",
              URL :=
                { Scheme := "https",
                  Host := "qyapi.weixin.qq.com",
                  EscapedPath := "/cgi-bin/message/send",
                  ForceQuery := false,
                  RawQuery := "access_token=TOK",
                  EscapedFragment := "" },
              Header := [("Content-Type", "application/json")],
              Body := "\x7b\"foo\":\"bar\"\x7d" }]
      ∧ parseJSON "\x7b\"foo\":\"bar\"\x7d" = some (JSON.obj [("foo", JSON.str "bar")])
      ∧ (requestWithToken (sampleEnv (Except.ok "TOK") 200 "null") sampleClient "POST"
            "/message/send" none SamplePayload.channel
            { Ticket := "", ExpiresIn := 0 }).err
        = some "编码参数错误: json: unsupported type: chan int"
      ∧ (requestWithToken (sampleEnv (Except.ok "TOK") 200 "null") sampleClient "POST"
            "/message/send" none SamplePayload.channel
            { Ticket := "", ExpiresIn := 0 }).trace
        = [Event.getToken, Event.marshal SamplePayload.channel] :=
  ⟨payload_delivery (sampleEnv (Except.ok "TOK") 200 "null") sampleClient sampleClient
      "POST" "/message/send" none SamplePayload.fooBar { Ticket := "", ExpiresIn := 0 }
      "TOK" rfl,
    by decide, rfl, by decide, by decide⟩

/-- C4 as stated fails: the body
`{"errcode":0,"errmsg":"ok","ticket":"T1","expires_in":"soon"}` passes the
envelope check, its second decode fails on `expires_in`, and the decode error
is returned together with a destination whose field `Ticket` has been
written. -/
theorem error_with_partly_populated_destination :
    (requestWithToken (sampleEnv (Except.ok "TOK") 200
        "\x7b\"errcode\":0,\"errmsg\":\"ok\",\"ticket\":\"T1\",\"expires_in\":\"soon\"\x7d")
        sampleClient "GET" "/ticket/get" none SamplePayload.null
        { Ticket := "", ExpiresIn := 0 }).err.bind kindOf
        = some ErrorKind.ResponseDecodeFailed
      ∧ (requestWithToken (sampleEnv (Except.ok "TOK") 200
        "\x7b\"errcode\":0,\"errmsg\":\"ok\",\"ticket\":\"T1\",\"expires_in\":\"soon\"\x7d")
        sampleClient "GET" "/ticket/get" none SamplePayload.null
        { Ticket := "", ExpiresIn := 0 }).dest = { Ticket := "T1", ExpiresIn := 0 }
      ∧ (requestWithToken (sampleEnv (Except.ok "TOK") 200
        "\x7b\"errcode\":0,\"errmsg\":\"ok\",\"ticket\":\"T1\",\"expires_in\":\"soon\"\x7d")
        sampleClient "GET" "/ticket/get" none SamplePayload.null
        { Ticket := "", ExpiresIn := 0 }).dest ≠ { Ticket := "", ExpiresIn := 0 } :=
  ⟨by decide, by decide, by decide⟩

/-- C4, amended: a call that returns no error has received a response whose
body, decoded into the destination, succeeded and left in the destination what
the call leaves there; a call that returns without having started the second
decode returns an error and leaves the destination exactly as it was; and a
call that returns an error either leaves the destination as it was, or it is
the second decode of the response body that failed, the error being its
`解析响应错误` and the destination what `json.Unmarshal` left. -/
theorem no_partial_results_before_second_decode {P D : Type} (env : Env P D)
    (cli : AgentClient) (method path : String) (query : Option Values) (reqData : P)
    (respInfo : D) :
    ((requestWithToken env cli method path query reqData respInfo).err = none →
        ∃ cli1 token buf resp body,
          env.GetAccessTokenFromCache cli = (cli1, Except.ok token)
            ∧ env.Marshal reqData = Except.ok buf
            ∧ env.Do (builtRequest method path query token buf) = Except.ok resp
            ∧ resp.Body = Except.ok body
            ∧ Unmarshal env.storeDest body respInfo
              = ((requestWithToken env cli method path query reqData respInfo).dest, none))
      ∧ ((requestWithToken env cli method path query reqData respInfo).trace.any
            Event.isUnmarshalDest = false →
          (requestWithToken env cli method path query reqData respInfo).err ≠ none
            ∧ (requestWithToken env cli method path query reqData respInfo).dest = respInfo)
      ∧ (∀ msg, (requestWithToken env cli method path query reqData respInfo).err = some msg →
          (requestWithToken env cli method path query reqData respInfo).dest = respInfo
            ∨ ∃ cli1 token buf resp body e,
                env.GetAccessTokenFromCache cli = (cli1, Except.ok token)
                  ∧ env.Marshal reqData = Except.ok buf
                  ∧ env.Do (builtRequest method path query token buf) = Except.ok resp
                  ∧ resp.Body = Except.ok body
                  ∧ Unmarshal env.storeDest body respInfo
                    = ((requestWithToken env cli method path query reqData respInfo).dest,
                        some e)
                  ∧ msg = "解析响应错误: " ++ env.jsonErrorText e) := by
  apply requestWithToken_cases env cli method path query reqData respInfo
    (fun out =>
      (out.err = none →
        ∃ cli1 token buf resp body,
          env.GetAccessTokenFromCache cli = (cli1, Except.ok token)
            ∧ env.Marshal reqData = Except.ok buf
            ∧ env.Do (builtRequest method path query token buf) = Except.ok resp
            ∧ resp.Body = Except.ok body
            ∧ Unmarshal env.storeDest body respInfo = (out.dest, none))
      ∧ (out.trace.any Event.isUnmarshalDest = false → out.err ≠ none ∧ out.dest = respInfo)
      ∧ (∀ msg, out.err = some msg →
          out.dest = respInfo
            ∨ ∃ cli1 token buf resp body e,
                env.GetAccessTokenFromCache cli = (cli1, Except.ok token)
                  ∧ env.Marshal reqData = Except.ok buf
                  ∧ env.Do (builtRequest method path query token buf) = Except.ok resp
                  ∧ resp.Body = Except.ok body
                  ∧ Unmarshal env.storeDest body respInfo = (out.dest, some e)
                  ∧ msg = "解析响应错误: " ++ env.jsonErrorText e))
  case decode_failed =>
    intro cli1 token buf resp body info dest e htoken hmarshal _ hdo hbody _ _ hdest
    refine ⟨by simp, by simp [Event.isUnmarshalDest], ?_⟩
    intro msg hmsg
    exact Or.inr ⟨cli1, token, buf, resp, body, e, htoken, hmarshal, hdo, hbody, hdest,
      (Option.some.inj hmsg).symm⟩
  case success =>
    intro cli1 token buf resp body info dest htoken hmarshal _ hdo hbody _ _ hdest
    exact ⟨fun _ => ⟨cli1, token, buf, resp, body, htoken, hmarshal, hdo, hbody, hdest⟩,
      by simp [Event.isUnmarshalDest], by simp⟩
  all_goals intros
  all_goals simp [Event.isUnmarshalDest]

end Wechat
